import Mathlib

/-!
# Premier-League-Simulation: fixtures, match simulation and standings

A shallow embedding of `models.go`, `league.go` and the season-advance handler of
`handlers.go`, followed by the properties proved about them.

Modelling conventions

* Go `int` is modelled by `Int` and `uint` by `Nat`. The `int` quantities are week numbers,
  goal counts and match counters, which grow by a few units per simulated match and stay
  far inside the machine range, so no wrap-around is modelled.
* Go slices are modelled by `List`; `s[i]` is `List.getD s i zeroTeam` (every index used
  by the code is in range).
* `float64` arithmetic of the goal formula is modelled over `ℚ`, and the conversion
  `int(x)` by truncation toward zero.
* The database is an explicit `Store` holding the team rows and the match rows.
-/

namespace PremierLeague

/-! ## models.go -/

/-- The `Team` struct. -/
structure Team where
  ID : Nat
  Name : String
  Strength : Int
  Wins : Int
  Draws : Int
  Losses : Int
  GoalsFor : Int
  GoalsAgainst : Int
  Points : Int
deriving DecidableEq, Repr

/-- The zero value of `Team`. -/
def zeroTeam : Team :=
  { ID := 0, Name := "", Strength := 0, Wins := 0, Draws := 0, Losses := 0,
    GoalsFor := 0, GoalsAgainst := 0, Points := 0 }

instance : Inhabited Team := ⟨zeroTeam⟩

/-- The method `Team.UpdateStats`. -/
def Team.UpdateStats (t : Team) (goalsFor goalsAgainst : Int) : Team :=
  let t := { t with GoalsFor := t.GoalsFor + goalsFor }
  let t := { t with GoalsAgainst := t.GoalsAgainst + goalsAgainst }
  if goalsFor > goalsAgainst then
    { t with Wins := t.Wins + 1, Points := t.Points + 3 }
  else if goalsFor = goalsAgainst then
    { t with Draws := t.Draws + 1, Points := t.Points + 1 }
  else
    { t with Losses := t.Losses + 1 }

/-- The `Match` struct; `HomeGoals` and `AwayGoals` are nullable (`*int`). -/
structure Match where
  ID : Nat
  Week : Int
  HomeTeamID : Nat
  AwayTeamID : Nat
  HomeGoals : Option Int
  AwayGoals : Option Int
  HomeTeam : Team
  AwayTeam : Team
deriving DecidableEq, Repr

/-! ## league.go: GenerateFixtures -/

/-- The literal `Team{ID: 0, Name: "BYE"}` appended for an odd number of teams. -/
def byeTeam : Team := { zeroTeam with ID := 0, Name := "BYE" }

/-- The first-half fixture literal of `GenerateFixtures`. -/
def firstHalfFixture (currentWeekInRound : Nat) (homeTeam awayTeam : Team) : Match :=
  { ID := 0, Week := (currentWeekInRound : Int),
    HomeTeamID := homeTeam.ID, AwayTeamID := awayTeam.ID,
    HomeGoals := none, AwayGoals := none, HomeTeam := zeroTeam, AwayTeam := zeroTeam }

/-- The return fixture literal of `GenerateFixtures`: home and away swapped. -/
def secondHalfFixture (currentWeekInRound rounds : Nat) (homeTeam awayTeam : Team) : Match :=
  { ID := 0, Week := ((currentWeekInRound + rounds : Nat) : Int),
    HomeTeamID := awayTeam.ID, AwayTeamID := homeTeam.ID,
    HomeGoals := none, AwayGoals := none, HomeTeam := zeroTeam, AwayTeam := zeroTeam }

/-- What one iteration of the inner loop appends for an already fetched pairing. -/
def emitPair (rounds round : Nat) (homeTeam awayTeam : Team) : List Match :=
  let currentWeekInRound := round + 1
  if homeTeam.Name = "BYE" ∨ awayTeam.Name = "BYE" then
    []
  else
    firstHalfFixture currentWeekInRound homeTeam awayTeam ::
      (if homeTeam.ID ≠ 0 ∧ awayTeam.ID ≠ 0 then
        [secondHalfFixture currentWeekInRound rounds homeTeam awayTeam]
      else [])

/-- The body of the inner loop of `GenerateFixtures` at index `i`. -/
def pairFixtures (tempTeams : List Team) (numTeamsForScheduling rounds round i : Nat) :
    List Match :=
  let homeIdx := i
  let awayIdx := numTeamsForScheduling - 1 - i
  let homeTeam := tempTeams.getD homeIdx zeroTeam
  let awayTeam := tempTeams.getD awayIdx zeroTeam
  emitPair rounds round homeTeam awayTeam

/-- The inner loop `for i := 0; i < numTeamsForScheduling/2; i++`: the fixtures appended
during one round. -/
def roundFixtures (tempTeams : List Team) (numTeamsForScheduling rounds round : Nat) :
    List Match :=
  (List.range (numTeamsForScheduling / 2)).flatMap
    (pairFixtures tempTeams numTeamsForScheduling rounds round)

/-- The loop `for k := numTeamsForScheduling - 1; k > 1; k-- { tempTeams[k] = tempTeams[k-1] }`,
entered with the given value of `k`. -/
def shiftLoop : Nat → List Team → List Team
  | k + 2, tempTeams =>
      shiftLoop (k + 1) (tempTeams.set (k + 2) (tempTeams.getD (k + 1) zeroTeam))
  | _, tempTeams => tempTeams

/-- The rotation step closing each round. -/
def rotateTeams (numTeamsForScheduling : Nat) (tempTeams : List Team) : List Team :=
  if numTeamsForScheduling > 2 then
    let lastTeamInRotation := tempTeams.getD (numTeamsForScheduling - 1) zeroTeam
    (shiftLoop (numTeamsForScheduling - 1) tempTeams).set 1 lastTeamInRotation
  else tempTeams

/-- The outer loop `for round := 0; round < rounds; round++`, with `remaining` iterations
left to run, the next one being `round`. -/
def roundsLoop (numTeamsForScheduling rounds : Nat) :
    Nat → Nat → List Team → List Match
  | 0, _, _ => []
  | remaining + 1, round, tempTeams =>
      roundFixtures tempTeams numTeamsForScheduling rounds round ++
        roundsLoop numTeamsForScheduling rounds remaining (round + 1)
          (rotateTeams numTeamsForScheduling tempTeams)

/-- The working copy of the teams: the BYE team is appended when their number is odd. -/
def schedulingTeams (teams : List Team) : List Team :=
  if teams.length % 2 ≠ 0 then teams ++ [byeTeam] else teams

/-- The function `League.GenerateFixtures`, as a function of `l.Teams`. -/
def GenerateFixtures (teams : List Team) : List Match :=
  let numTeamsOriginal := teams.length
  if numTeamsOriginal < 2 then
    []
  else
    let tempTeams := schedulingTeams teams
    let numTeamsForScheduling := tempTeams.length
    let rounds := numTeamsForScheduling - 1
    roundsLoop numTeamsForScheduling rounds rounds 0 tempTeams

/-- The number of rounds of one half of the season for `N` teams. -/
def halfRounds (N : Nat) : Nat := if N % 2 = 0 then N - 1 else N

/-! ## league.go: GetLeagueTable -/

/-- The swap test of the inner loop of `GetLeagueTable`: `teamB` (at `j`) goes before
`teamA` (at `i`). -/
def swapNeeded (teamA teamB : Team) : Bool :=
  if teamB.Points > teamA.Points then true
  else
    let goalDiffA := teamA.GoalsFor - teamA.GoalsAgainst
    let goalDiffB := teamB.GoalsFor - teamB.GoalsAgainst
    if teamB.Points = teamA.Points ∧ goalDiffB > goalDiffA then true
    else if teamB.Points = teamA.Points ∧ goalDiffB = goalDiffA ∧
        teamB.GoalsFor > teamA.GoalsFor then true
    else false

/-- The inner loop `for j := ...; j < len(table); j++` of `GetLeagueTable` for a fixed
`i`, with `remaining` iterations left to run, the next one being `j`. -/
def innerLoop (i : Nat) : Nat → Nat → List Team → List Team
  | 0, _, table => table
  | remaining + 1, j, table =>
      let teamA := table.getD i zeroTeam
      let teamB := table.getD j zeroTeam
      let table := if swapNeeded teamA teamB then (table.set i teamB).set j teamA else table
      innerLoop i remaining (j + 1) table

/-- The outer loop `for i := ...; i < len(table)-1; i++` of `GetLeagueTable`, with
`remaining` iterations left to run, the next one being `i`. -/
def outerLoop : Nat → Nat → List Team → List Team
  | 0, _, table => table
  | remaining + 1, i, table =>
      outerLoop remaining (i + 1) (innerLoop i (table.length - (i + 1)) (i + 1) table)

/-- The function `League.GetLeagueTable`, as a function of `l.Teams`. -/
def GetLeagueTable (teams : List Team) : List Team :=
  outerLoop (teams.length - 1) 0 teams

/-- The sort key of the standings. -/
def tableKey (t : Team) : Int × Int × Int :=
  (t.Points, t.GoalsFor - t.GoalsAgainst, t.GoalsFor)

/-- Lexicographic `≤` on keys: `keyLE a b` says that `a` is at most `b`. -/
def keyLE (a b : Int × Int × Int) : Prop :=
  a.1 < b.1 ∨ (a.1 = b.1 ∧ (a.2.1 < b.2.1 ∨ (a.2.1 = b.2.1 ∧ a.2.2 ≤ b.2.2)))

instance (a b : Int × Int × Int) : Decidable (keyLE a b) := by
  unfold keyLE; infer_instance

/-! ## The goal formula of SimulateMatch and handlePlayNextWeek -/

/-- The conversion `int(x)`: truncation toward zero. -/
def truncToInt (x : ℚ) : Int := Int.tdiv x.num (x.den : Int)

/-- The value `int(float64(homeStrength) * (1.2 + u*0.3) / 20.0)`. -/
def homeGoalsOf (homeStrength : Int) (u : ℚ) : Int :=
  let homeStrengthFactor := (homeStrength : ℚ) * (12 / 10 + u * (3 / 10))
  truncToInt (homeStrengthFactor / 20)

/-- The value `int(float64(awayStrength) * (1.0 + u*0.3) / 20.0)`. -/
def awayGoalsOf (awayStrength : Int) (u : ℚ) : Int :=
  let awayStrengthFactor := (awayStrength : ℚ) * (1 + u * (3 / 10))
  truncToInt (awayStrengthFactor / 20)

/-- The method `League.SimulateMatch`, with the two random variates drawn passed in;
it returns the match and the two updated teams. -/
def SimulateMatch (currentWeek : Int) (homeTeam awayTeam : Team) (uHome uAway : ℚ) :
    Match × Team × Team :=
  let homeGoals := homeGoalsOf homeTeam.Strength uHome
  let awayGoals := awayGoalsOf awayTeam.Strength uAway
  ({ ID := 0, Week := currentWeek, HomeTeamID := homeTeam.ID, AwayTeamID := awayTeam.ID,
     HomeGoals := some homeGoals, AwayGoals := some awayGoals,
     HomeTeam := homeTeam, AwayTeam := awayTeam },
   homeTeam.UpdateStats homeGoals awayGoals,
   awayTeam.UpdateStats awayGoals homeGoals)

/-! ## handlers.go: handlePlayNextWeek over an explicit store -/

/-- The database: the rows of the `teams` table and of the `matches` table. The
association fields `HomeTeam` and `AwayTeam` are not columns; rows hold `zeroTeam` there. -/
structure Store where
  teams : List Team
  matchRows : List Match
deriving DecidableEq, Repr

/-- What the handler writes to the client. -/
inductive Response where
  | ok (teams : List Team) (allMatches : List Match) (week : Int)
  | error (status : Nat) (message : String)
deriving DecidableEq, Repr

/-- The aggregate `MAX(week)` over a set of rows: NULL (`none`) over no rows. -/
def maxWeekOf : List Match → Option Int
  | [] => none
  | m :: ms =>
      match maxWeekOf ms with
      | none => some m.Week
      | some w => some (max m.Week w)

/-- The query `COALESCE(MAX(week), 0)` over the rows `WHERE home_goals IS NOT NULL`. -/
def lastPlayedWeek (rows : List Match) : Int :=
  (maxWeekOf (rows.filter (fun m => m.HomeGoals.isSome))).getD 0

/-- The lookup `db.First(&team, id)`. -/
def findTeam (teams : List Team) (id : Nat) : Option Team :=
  teams.find? (fun t => t.ID = id)

/-- The effect of `Preload("HomeTeam").Preload("AwayTeam")` on a fetched row. -/
def preload (teams : List Team) (m : Match) : Match :=
  { m with HomeTeam := (findTeam teams m.HomeTeamID).getD zeroTeam,
           AwayTeam := (findTeam teams m.AwayTeamID).getD zeroTeam }

/-- The write `db.Save(currentMatch)`: the row with that primary key gets the columns. -/
def saveMatch (rows : List Match) (m : Match) : List Match :=
  rows.map (fun row =>
    if row.ID = m.ID then { m with HomeTeam := zeroTeam, AwayTeam := zeroTeam } else row)

/-- The write `db.Save(&team)`: the row with that primary key is replaced. -/
def saveTeam (teams : List Team) (t : Team) : List Team :=
  teams.map (fun row => if row.ID = t.ID then t else row)

/-- The loop `for i := range weekMatches` of `handlePlayNextWeek`; `rng i` gives the two
variates drawn in iteration `i`. It returns the store reached and the error response
written, if any. Database writes succeed in this model. -/
def simulateWeek (rng : Nat → ℚ × ℚ) : List Match → Nat → Store → Store × Option Response
  | [], _, s => (s, none)
  | currentMatch :: rest, i, s =>
      match findTeam s.teams currentMatch.HomeTeamID with
      | none => (s, some (Response.error 500 "Error fetching home team for match simulation"))
      | some homeTeamToUpdate =>
        match findTeam s.teams currentMatch.AwayTeamID with
        | none => (s, some (Response.error 500 "Error fetching away team for match simulation"))
        | some awayTeamToUpdate =>
          let homeScore := homeGoalsOf homeTeamToUpdate.Strength (rng i).1
          let awayScore := awayGoalsOf awayTeamToUpdate.Strength (rng i).2
          let currentMatch :=
            { currentMatch with HomeGoals := some homeScore, AwayGoals := some awayScore }
          let homeTeamToUpdate := homeTeamToUpdate.UpdateStats homeScore awayScore
          let awayTeamToUpdate := awayTeamToUpdate.UpdateStats awayScore homeScore
          let s := { s with matchRows := saveMatch s.matchRows currentMatch }
          let s := { s with teams := saveTeam s.teams homeTeamToUpdate }
          let s := { s with teams := saveTeam s.teams awayTeamToUpdate }
          simulateWeek rng rest (i + 1) s

/-- The handler `handlePlayNextWeek` on a POST request (any other method is answered
before the store is read): the store it leaves and the response it writes. -/
def handlePlayNextWeek (rng : Nat → ℚ × ℚ) (s : Store) : Store × Response :=
  let currentWeek := lastPlayedWeek s.matchRows
  match maxWeekOf s.matchRows with
  | none => (s, Response.error 500 "Error fetching max week")
  | some maxWeek =>
    let currentWeek := currentWeek + 1
    if currentWeek > maxWeek then
      (s, Response.error 400 "Season is complete")
    else
      let weekMatches :=
        (s.matchRows.filter (fun m => m.Week = currentWeek)).map (preload s.teams)
      match simulateWeek rng weekMatches 0 s with
      | (s, some err) => (s, err)
      | (s, none) =>
          let allMatches :=
            ((s.matchRows.map (preload s.teams)).insertionSort (fun a b => a.Week ≤ b.Week))
          (s, Response.ok s.teams allMatches currentWeek)

/-! ## Auxiliary definitions used to state the properties -/

/-- A team whose statistics are all zero. -/
def statsZero (t : Team) : Prop :=
  t.Wins = 0 ∧ t.Draws = 0 ∧ t.Losses = 0 ∧ t.GoalsFor = 0 ∧ t.GoalsAgainst = 0 ∧ t.Points = 0

instance (t : Team) : Decidable (statsZero t) := by
  unfold statsZero; infer_instance

/-- A finite sequence of `UpdateStats` calls, given by their arguments. -/
def applyCalls (t : Team) (calls : List (Int × Int)) : Team :=
  calls.foldl (fun t c => t.UpdateStats c.1 c.2) t

/-- A team with the given id and name, all else zero. -/
def mkTeam (id : Nat) (name : String) : Team := { zeroTeam with ID := id, Name := name }

/-- A team with the given id and standings figures, all else zero. -/
def mkRow (id : Nat) (points goalsFor goalsAgainst : Int) : Team :=
  { zeroTeam with ID := id, Points := points, GoalsFor := goalsFor,
                  GoalsAgainst := goalsAgainst }

/-- Four teams with ids 1 to 4. -/
def fourTeams : List Team :=
  [mkTeam 1 "Chelsea", mkTeam 2 "Arsenal", mkTeam 3 "Manchester City", mkTeam 4 "Liverpool"]

/-- Five teams with ids 1 to 5. -/
def fiveTeams : List Team := fourTeams ++ [mkTeam 5 "Everton"]

/-- A two-team season whose two weeks have both been played. -/
def playedStore : Store :=
  { teams := [mkTeam 1 "Chelsea", mkTeam 2 "Arsenal"],
    matchRows :=
      [{ ID := 1, Week := 1, HomeTeamID := 1, AwayTeamID := 2, HomeGoals := some 2,
         AwayGoals := some 1, HomeTeam := zeroTeam, AwayTeam := zeroTeam },
       { ID := 2, Week := 2, HomeTeamID := 2, AwayTeamID := 1, HomeGoals := some 0,
         AwayGoals := some 0, HomeTeam := zeroTeam, AwayTeam := zeroTeam }] }

/-- The sort key in the lexicographic order. -/
def lexKey (t : Team) : ℤ ×ₗ ℤ ×ₗ ℤ :=
  toLex (t.Points, toLex (t.GoalsFor - t.GoalsAgainst, t.GoalsFor))

/-- One run of the inner loop of `GetLeagueTable` seen on the part of the table behind
position `i`: `a` is the team currently at `i`; the result is the team left at `i` and the
part behind it. -/
def exchPass (a : Team) : List Team → Team × List Team
  | [] => (a, [])
  | b :: bs =>
      if swapNeeded a b then ((exchPass b bs).1, a :: (exchPass b bs).2)
      else ((exchPass a bs).1, b :: (exchPass a bs).2)

/-- Three teams, the first two fully tied, the third ahead on points. -/
def tiedTeams : List Team := [mkRow 1 1 0 0, mkRow 2 1 0 0, mkRow 3 3 0 0]

/-- The index, in the initial working slice of `n` teams, of the team found at position
`k` when round `r` starts: position 0 never moves, the other positions move up by one
each round, the last one wrapping to position 1. -/
def arrIdx (n r k : Nat) : Nat :=
  if k = 0 then 0 else if r ≤ k - 1 then k - r else k + (n - 1) - r

/-- The index read at position `k` after one rotation step. -/
def rotIdx (n k : Nat) : Nat :=
  if k = 0 then 0 else if k = 1 then n - 1 else k - 1

/-- The calendar of `n` scheduling slots on indices: for each round and pair index the
first-half entry and the return entry, as (week, home index, away index). -/
def idxSchedule (n : Nat) : List (Nat × Nat × Nat) :=
  (List.range (n - 1)).flatMap (fun r =>
    (List.range (n / 2)).flatMap (fun i =>
      [(r + 1, arrIdx n r i, arrIdx n r (n - 1 - i)),
       (r + 1 + (n - 1), arrIdx n r (n - 1 - i), arrIdx n r i)]))

/-- The fixture that an index entry stands for. -/
def fixtureOf (tempTeams : List Team) (e : Nat × Nat × Nat) : Match :=
  { ID := 0, Week := (e.1 : Int),
    HomeTeamID := (tempTeams.getD e.2.1 zeroTeam).ID,
    AwayTeamID := (tempTeams.getD e.2.2 zeroTeam).ID,
    HomeGoals := none, AwayGoals := none, HomeTeam := zeroTeam, AwayTeam := zeroTeam }

/-- The teams the scheduling claims are about: pairwise distinct non-zero ids, and no
team named "BYE". -/
def validTeams (teams : List Team) : Prop :=
  (teams.map (fun t => t.ID)).Nodup ∧ ∀ t ∈ teams, t.ID ≠ 0 ∧ t.Name ≠ "BYE"

instance (teams : List Team) : Decidable (validTeams teams) := by
  unfold validTeams; infer_instance

/-- Four teams that all have id 0, as before they are saved. -/
def unsavedTeams : List Team :=
  [mkTeam 0 "Chelsea", mkTeam 0 "Arsenal", mkTeam 0 "Manchester City", mkTeam 0 "Liverpool"]

/-! ## UpdateStats -/

theorem updateStats_fields (t : Team) (gf ga : Int) :
    (t.UpdateStats gf ga).GoalsFor = t.GoalsFor + gf ∧
    (t.UpdateStats gf ga).GoalsAgainst = t.GoalsAgainst + ga ∧
    (t.UpdateStats gf ga).ID = t.ID ∧ (t.UpdateStats gf ga).Name = t.Name ∧
    (t.UpdateStats gf ga).Strength = t.Strength ∧
    ((ga < gf ∧ (t.UpdateStats gf ga).Wins = t.Wins + 1 ∧
        (t.UpdateStats gf ga).Draws = t.Draws ∧ (t.UpdateStats gf ga).Losses = t.Losses ∧
        (t.UpdateStats gf ga).Points = t.Points + 3) ∨
     (gf = ga ∧ (t.UpdateStats gf ga).Wins = t.Wins ∧
        (t.UpdateStats gf ga).Draws = t.Draws + 1 ∧ (t.UpdateStats gf ga).Losses = t.Losses ∧
        (t.UpdateStats gf ga).Points = t.Points + 1) ∨
     (gf < ga ∧ (t.UpdateStats gf ga).Wins = t.Wins ∧
        (t.UpdateStats gf ga).Draws = t.Draws ∧ (t.UpdateStats gf ga).Losses = t.Losses + 1 ∧
        (t.UpdateStats gf ga).Points = t.Points)) := by
  unfold Team.UpdateStats
  by_cases h1 : gf > ga
  · simp [h1]
  · by_cases h2 : gf = ga
    · simp [h2]
    · have h3 : gf < ga := by omega
      simp [h1, h2, h3]

theorem applyCalls_invariant (calls : List (Int × Int)) (t : Team) (k : Int)
    (hp : t.Points = 3 * t.Wins + t.Draws) (hk : t.Wins + t.Draws + t.Losses = k) :
    (applyCalls t calls).Points = 3 * (applyCalls t calls).Wins + (applyCalls t calls).Draws ∧
    (applyCalls t calls).Wins + (applyCalls t calls).Draws + (applyCalls t calls).Losses
      = k + calls.length := by
  induction calls generalizing t k with
  | nil => simp [applyCalls, hp, hk]
  | cons c cs ih =>
    have hf := updateStats_fields t c.1 c.2
    have h := ih (t.UpdateStats c.1 c.2) (k + 1) (by omega) (by omega)
    simp only [applyCalls, List.foldl_cons, List.length_cons] at h ⊢
    refine ⟨h.1, ?_⟩
    rw [h.2]; push_cast; ring

/-- C4: starting from zero statistics, after any finite sequence of `UpdateStats` calls
`Points = 3*Wins + Draws` and `Wins + Draws + Losses` is the number of calls; each single
call adds its arguments to `GoalsFor` and `GoalsAgainst` and increments exactly one of
`Wins` (iff `goalsFor > goalsAgainst`), `Draws` (iff equal), `Losses` (iff less). -/
theorem C4_updateStats_invariant (t : Team) (calls : List (Int × Int)) (h0 : statsZero t) :
    (applyCalls t calls).Points = 3 * (applyCalls t calls).Wins + (applyCalls t calls).Draws ∧
    (applyCalls t calls).Wins + (applyCalls t calls).Draws + (applyCalls t calls).Losses
      = calls.length ∧
    ∀ (u : Team) (gf ga : Int),
      (u.UpdateStats gf ga).GoalsFor = u.GoalsFor + gf ∧
      (u.UpdateStats gf ga).GoalsAgainst = u.GoalsAgainst + ga ∧
      ((ga < gf ∧ (u.UpdateStats gf ga).Wins = u.Wins + 1 ∧
          (u.UpdateStats gf ga).Draws = u.Draws ∧ (u.UpdateStats gf ga).Losses = u.Losses) ∨
       (gf = ga ∧ (u.UpdateStats gf ga).Wins = u.Wins ∧
          (u.UpdateStats gf ga).Draws = u.Draws + 1 ∧ (u.UpdateStats gf ga).Losses = u.Losses) ∨
       (gf < ga ∧ (u.UpdateStats gf ga).Wins = u.Wins ∧
          (u.UpdateStats gf ga).Draws = u.Draws ∧
          (u.UpdateStats gf ga).Losses = u.Losses + 1)) := by
  obtain ⟨hw, hd, hl, -, -, hp⟩ := h0
  have h := applyCalls_invariant calls t 0 (by omega) (by omega)
  refine ⟨h.1, by simpa using h.2, ?_⟩
  intro u gf ga
  have hf := updateStats_fields u gf ga
  refine ⟨hf.1, hf.2.1, ?_⟩
  rcases hf.2.2.2.2.2 with h | h | h
  · exact Or.inl ⟨h.1, h.2.1, h.2.2.1, h.2.2.2.1⟩
  · exact Or.inr (Or.inl ⟨h.1, h.2.1, h.2.2.1, h.2.2.2.1⟩)
  · exact Or.inr (Or.inr ⟨h.1, h.2.1, h.2.2.1, h.2.2.2.1⟩)

/-- A win, a draw and a defeat applied to a fresh team. -/
theorem C4_updateStats_invariant_witness :
    statsZero zeroTeam ∧
    (applyCalls zeroTeam [(2, 1), (0, 0), (1, 3)]).Points = 4 ∧
    (applyCalls zeroTeam [(2, 1), (0, 0), (1, 3)]).Wins = 1 ∧
    (applyCalls zeroTeam [(2, 1), (0, 0), (1, 3)]).Points =
      3 * (applyCalls zeroTeam [(2, 1), (0, 0), (1, 3)]).Wins +
        (applyCalls zeroTeam [(2, 1), (0, 0), (1, 3)]).Draws :=
  ⟨by decide, by decide, by decide,
    (C4_updateStats_invariant zeroTeam [(2, 1), (0, 0), (1, 3)] (by decide)).1⟩

/-! ## The goal formula -/

theorem truncToInt_of_nonneg (x : ℚ) (hx : 0 ≤ x) : truncToInt x = ⌊x⌋ := by
  unfold truncToInt
  rw [Int.tdiv_eq_ediv (Rat.num_nonneg.mpr hx) (Int.natCast_nonneg _)]
  exact Rat.floor_def.symm

theorem homeFactor_nonneg (s : Int) (u : ℚ) (hs : 0 ≤ s) (hu : 0 ≤ u) :
    0 ≤ (s : ℚ) * (12 / 10 + u * (3 / 10)) / 20 := by
  have h : (0 : ℚ) ≤ (s : ℚ) := by exact_mod_cast hs
  positivity

theorem awayFactor_nonneg (s : Int) (u : ℚ) (hs : 0 ≤ s) (hu : 0 ≤ u) :
    0 ≤ (s : ℚ) * (1 + u * (3 / 10)) / 20 := by
  have h : (0 : ℚ) ≤ (s : ℚ) := by exact_mod_cast hs
  positivity

theorem homeGoalsOf_eq_floor (s : Int) (u : ℚ) (hs : 0 ≤ s) (hu : 0 ≤ u) :
    homeGoalsOf s u = ⌊(s : ℚ) * (12 / 10 + u * (3 / 10)) / 20⌋ := by
  unfold homeGoalsOf
  exact truncToInt_of_nonneg _ (homeFactor_nonneg s u hs hu)

theorem awayGoalsOf_eq_floor (s : Int) (u : ℚ) (hs : 0 ≤ s) (hu : 0 ≤ u) :
    awayGoalsOf s u = ⌊(s : ℚ) * (1 + u * (3 / 10)) / 20⌋ := by
  unfold awayGoalsOf
  exact truncToInt_of_nonneg _ (awayFactor_nonneg s u hs hu)

/-- C6: for non-negative strengths and variates in `[0,1)`, both goal counts of the match
simulation (exact rationals, truncation toward zero) are non-negative. -/
theorem C6_goals_nonneg (homeStrength awayStrength : Int) (uHome uAway : ℚ)
    (hh : 0 ≤ homeStrength) (ha : 0 ≤ awayStrength)
    (hu0 : 0 ≤ uHome) (_hu1 : uHome < 1) (hv0 : 0 ≤ uAway) (_hv1 : uAway < 1) :
    0 ≤ homeGoalsOf homeStrength uHome ∧ 0 ≤ awayGoalsOf awayStrength uAway := by
  rw [homeGoalsOf_eq_floor _ _ hh hu0, awayGoalsOf_eq_floor _ _ ha hv0]
  exact ⟨Int.floor_nonneg.mpr (homeFactor_nonneg _ _ hh hu0),
    Int.floor_nonneg.mpr (awayFactor_nonneg _ _ ha hv0)⟩

/-- Strengths 85 and 82 with variates 1/2 and 1/4. -/
theorem C6_goals_nonneg_witness :
    0 ≤ homeGoalsOf 85 (1 / 2) ∧ 0 ≤ awayGoalsOf 82 (1 / 4) :=
  C6_goals_nonneg 85 82 (1 / 2) (1 / 4) (by norm_num) (by norm_num) (by norm_num)
    (by norm_num) (by norm_num) (by norm_num)

theorem homeGoalsOf_85 (u : ℚ) (h0 : 0 ≤ u) (h1 : u < 1) :
    homeGoalsOf 85 u = 5 ∨ homeGoalsOf 85 u = 6 := by
  rw [homeGoalsOf_eq_floor 85 u (by norm_num) h0]
  by_cases h : u < 12 / 17
  · left
    rw [Int.floor_eq_iff]
    constructor <;> push_cast <;> linarith
  · right
    rw [Int.floor_eq_iff]
    constructor <;> push_cast <;> linarith

theorem awayGoalsOf_85 (u : ℚ) (h0 : 0 ≤ u) (h1 : u < 1) :
    awayGoalsOf 85 u = 4 ∨ awayGoalsOf 85 u = 5 := by
  rw [awayGoalsOf_eq_floor 85 u (by norm_num) h0]
  by_cases h : u < 10 / 17
  · left
    rw [Int.floor_eq_iff]
    constructor <;> push_cast <;> linarith
  · right
    rw [Int.floor_eq_iff]
    constructor <;> push_cast <;> linarith

/-- C8, refuted as stated: no variate in `[0,1)` makes a strength-85 team score 0, neither
as the home side nor as the away side. -/
theorem C8_strength85_never_zero :
    ¬ ∃ u : ℚ, 0 ≤ u ∧ u < 1 ∧ (homeGoalsOf 85 u = 0 ∨ awayGoalsOf 85 u = 0) := by
  rintro ⟨u, h0, h1, h | h⟩
  · rcases homeGoalsOf_85 u h0 h1 with h5 | h6 <;> omega
  · rcases awayGoalsOf_85 u h0 h1 with h4 | h5 <;> omega

/-- C8, amended: for every variate in `[0,1)` a strength-85 team scores 5 or 6 at home and
4 or 5 away; a score of 0 does occur for weak teams, such as strength 16 at home and
strength 19 away with variate 0. -/
theorem C8_strength85_goal_range (u : ℚ) (h0 : 0 ≤ u) (h1 : u < 1) :
    (homeGoalsOf 85 u = 5 ∨ homeGoalsOf 85 u = 6) ∧
    (awayGoalsOf 85 u = 4 ∨ awayGoalsOf 85 u = 5) ∧
    homeGoalsOf 16 0 = 0 ∧ awayGoalsOf 19 0 = 0 := by
  refine ⟨homeGoalsOf_85 u h0 h1, awayGoalsOf_85 u h0 h1, ?_, ?_⟩
  · rw [homeGoalsOf_eq_floor 16 0 (by norm_num) le_rfl, Int.floor_eq_iff]
    constructor <;> norm_num
  · rw [awayGoalsOf_eq_floor 19 0 (by norm_num) le_rfl, Int.floor_eq_iff]
    constructor <;> norm_num

/-- The variate 1/2. -/
theorem C8_strength85_goal_range_witness :
    (0 : ℚ) ≤ 1 / 2 ∧ (1 / 2 : ℚ) < 1 ∧
    (homeGoalsOf 85 (1 / 2) = 5 ∨ homeGoalsOf 85 (1 / 2) = 6) ∧
    (awayGoalsOf 85 (1 / 2) = 4 ∨ awayGoalsOf 85 (1 / 2) = 5) :=
  ⟨by norm_num, by norm_num,
    (C8_strength85_goal_range (1 / 2) (by norm_num) (by norm_num)).1,
    (C8_strength85_goal_range (1 / 2) (by norm_num) (by norm_num)).2.1⟩

/-! ## handlePlayNextWeek -/

/-- C7: when the last played week equals the maximum scheduled week, `handlePlayNextWeek`
answers `Season is complete` and leaves the store (team statistics and match goals) as it
was. -/
theorem C7_season_complete_no_mutation (rng : Nat → ℚ × ℚ) (s : Store) (w : Int)
    (hmax : maxWeekOf s.matchRows = some w) (hlast : lastPlayedWeek s.matchRows = w) :
    handlePlayNextWeek rng s = (s, Response.error 400 "Season is complete") := by
  unfold handlePlayNextWeek
  simp only [hmax, hlast]
  rw [if_pos (by omega)]

/-- The fully played two-week season. -/
theorem C7_season_complete_no_mutation_witness :
    maxWeekOf playedStore.matchRows = some 2 ∧ lastPlayedWeek playedStore.matchRows = 2 ∧
    handlePlayNextWeek (fun _ => (0, 0)) playedStore
      = (playedStore, Response.error 400 "Season is complete") :=
  ⟨by decide, by decide,
    C7_season_complete_no_mutation (fun _ => (0, 0)) playedStore 2 (by decide) (by decide)⟩

/-! ## GetLeagueTable -/

theorem swapNeeded_iff (a b : Team) :
    swapNeeded a b = true ↔ lexKey a < lexKey b := by
  unfold swapNeeded lexKey
  simp only [Prod.Lex.lt_iff]
  by_cases h1 : b.Points > a.Points
  · simp [h1]
  · by_cases h2 : b.Points = a.Points
    · by_cases h3 : b.GoalsFor - b.GoalsAgainst > a.GoalsFor - a.GoalsAgainst
      · simp [h1, h2, h3]
      · by_cases h4 : b.GoalsFor - b.GoalsAgainst = a.GoalsFor - a.GoalsAgainst
        · simp [h2, h4]
        · simp [h2, h3, h4]
          intro h; omega
    · simp [h1, h2]
      omega

theorem keyLE_iff (a b : Team) :
    keyLE (tableKey a) (tableKey b) ↔ lexKey a ≤ lexKey b := by
  unfold keyLE tableKey lexKey
  simp only [Prod.Lex.le_iff, Prod.Lex.lt_iff]

theorem getD_append_cons (pre rest : List Team) (a : Team) :
    (pre ++ a :: rest).getD pre.length zeroTeam = a := by
  rw [List.getD_eq_getElem?_getD, List.getElem?_append_right (Nat.le_refl _)]
  simp

theorem set_append_cons (pre rest : List Team) (a b : Team) :
    (pre ++ a :: rest).set pre.length b = pre ++ b :: rest := by
  rw [List.set_append_right _ _ (Nat.le_refl _)]
  simp

theorem swap_in_place (pre done bs : List Team) (a b : Team) :
    (pre ++ a :: (done ++ b :: bs)).getD pre.length zeroTeam = a ∧
    (pre ++ a :: (done ++ b :: bs)).getD (pre.length + 1 + done.length) zeroTeam = b ∧
    ((pre ++ a :: (done ++ b :: bs)).set pre.length b).set (pre.length + 1 + done.length) a
      = pre ++ b :: (done ++ a :: bs) := by
  have e1 : ∀ x y : Team, pre ++ x :: (done ++ y :: bs) = (pre ++ x :: done) ++ y :: bs := by
    intro x y; simp
  have e2 : pre.length + 1 + done.length = (pre ++ a :: done).length := by
    simp; omega
  have e3 : pre.length + 1 + done.length = (pre ++ b :: done).length := by
    simp; omega
  refine ⟨getD_append_cons _ _ _, ?_, ?_⟩
  · rw [e1, e2]; exact getD_append_cons _ _ _
  · rw [set_append_cons, e1, e3, set_append_cons, ← e1]

theorem innerLoop_eq (pre : List Team) (todo : List Team) (a : Team) (done : List Team) :
    innerLoop pre.length todo.length (pre.length + 1 + done.length)
        (pre ++ a :: (done ++ todo))
      = pre ++ (exchPass a todo).1 :: (done ++ (exchPass a todo).2) := by
  induction todo generalizing a done with
  | nil => simp [innerLoop, exchPass]
  | cons b bs ih =>
    obtain ⟨hA, hB, hS⟩ := swap_in_place pre done bs a b
    have hlen : ∀ x : Team, pre.length + 1 + done.length + 1
        = pre.length + 1 + (done ++ [x]).length := by
      intro x; simp; omega
    have happ : ∀ x y : Team, pre ++ x :: (done ++ y :: bs)
        = pre ++ x :: ((done ++ [y]) ++ bs) := by
      intro x y; simp
    simp only [innerLoop, List.length_cons, hA, hB]
    by_cases h : swapNeeded a b = true
    · simp only [h, if_true, hS, exchPass]
      rw [hlen a, happ b a, ih b (done ++ [a])]
      simp
    · have hf : swapNeeded a b = false := by simpa using h
      simp only [hf, Bool.false_eq_true, if_false, exchPass]
      rw [hlen b, happ a b, ih a (done ++ [b])]
      simp

theorem exchPass_length (l : List Team) (a : Team) : (exchPass a l).2.length = l.length := by
  induction l generalizing a with
  | nil => simp [exchPass]
  | cons b bs ih =>
    unfold exchPass
    split <;> simp [ih]

theorem exchPass_perm (l : List Team) (a : Team) :
    ((exchPass a l).1 :: (exchPass a l).2).Perm (a :: l) := by
  induction l generalizing a with
  | nil => simp [exchPass]
  | cons b bs ih =>
    unfold exchPass
    split
    · exact ((List.Perm.swap _ _ _).trans ((ih b).cons a))
    · exact ((List.Perm.swap _ _ _).trans ((ih a).cons b)).trans (List.Perm.swap _ _ _)

theorem exchPass_head_ge (l : List Team) (a : Team) : lexKey a ≤ lexKey (exchPass a l).1 := by
  induction l generalizing a with
  | nil => simp [exchPass]
  | cons b bs ih =>
    unfold exchPass
    split
    · rename_i h
      exact le_trans (le_of_lt ((swapNeeded_iff a b).mp h)) (ih b)
    · exact ih a

theorem exchPass_max (l : List Team) (a : Team) :
    ∀ x ∈ (exchPass a l).2, lexKey x ≤ lexKey (exchPass a l).1 := by
  induction l generalizing a with
  | nil => simp [exchPass]
  | cons b bs ih =>
    unfold exchPass
    split
    · rename_i h
      intro x hx
      rcases List.mem_cons.mp hx with rfl | hx
      · exact le_trans (le_of_lt ((swapNeeded_iff _ b).mp h)) (exchPass_head_ge bs b)
      · exact ih b x hx
    · rename_i h
      intro x hx
      rcases List.mem_cons.mp hx with rfl | hx
      · have : ¬ lexKey a < lexKey x := fun hlt => h ((swapNeeded_iff a x).mpr hlt)
        exact le_trans (not_lt.mp this) (exchPass_head_ge bs a)
      · exact ih a x hx

theorem exchPass_of_max (l : List Team) (a : Team) (h : ∀ x ∈ l, lexKey x ≤ lexKey a) :
    exchPass a l = (a, l) := by
  induction l with
  | nil => simp [exchPass]
  | cons b bs ih =>
    have hb : ¬ swapNeeded a b = true := fun hs =>
      not_lt.mpr (h b (List.mem_cons_self _ _)) ((swapNeeded_iff a b).mp hs)
    have := ih (fun x hx => h x (List.mem_cons_of_mem _ hx))
    simp [exchPass, hb, this]

theorem outerLoop_sorts (rem : Nat) (pre suf : List Team) (hrem : rem = suf.length - 1) :
    ∃ out, outerLoop rem pre.length (pre ++ suf) = pre ++ out ∧ out.Perm suf ∧
      out.Pairwise (fun x y => lexKey y ≤ lexKey x) := by
  induction rem generalizing pre suf with
  | zero =>
    refine ⟨suf, by simp [outerLoop], List.Perm.refl _, ?_⟩
    match suf, hrem with
    | [], _ => simp
    | [a], _ => simp
    | a :: b :: l, h => simp at h
  | succ rem ih =>
    match suf, hrem with
    | [], h => simp at h
    | a :: rest, h =>
      have hrest : rem = rest.length - 1 := by simp at h; omega
      have hlen : (pre ++ a :: rest).length - (pre.length + 1) = rest.length := by
        simp; omega
      have hin := innerLoop_eq pre rest a []
      simp only [List.length_nil, Nat.add_zero, List.nil_append] at hin
      have hr2 : rem = (exchPass a rest).2.length - 1 := by
        rw [exchPass_length]; exact hrest
      obtain ⟨out, ho, hp, hs⟩ := ih (pre ++ [(exchPass a rest).1]) (exchPass a rest).2 hr2
      refine ⟨(exchPass a rest).1 :: out, ?_, ?_, ?_⟩
      · simp only [outerLoop, hlen, hin]
        have e : pre ++ (exchPass a rest).1 :: (exchPass a rest).2
            = (pre ++ [(exchPass a rest).1]) ++ (exchPass a rest).2 := by simp
        have e2 : pre.length + 1 = (pre ++ [(exchPass a rest).1]).length := by simp
        rw [e, e2, ho]; simp
      · exact (hp.cons _).trans (exchPass_perm rest a)
      · refine List.Pairwise.cons ?_ hs
        intro x hx
        exact exchPass_max rest a x (hp.subset hx)

theorem outerLoop_of_sorted (rem : Nat) (pre suf : List Team) (hrem : rem = suf.length - 1)
    (hs : suf.Pairwise (fun x y => lexKey y ≤ lexKey x)) :
    outerLoop rem pre.length (pre ++ suf) = pre ++ suf := by
  induction rem generalizing pre suf with
  | zero => simp [outerLoop]
  | succ rem ih =>
    match suf, hrem, hs with
    | [], h, _ => simp at h
    | a :: rest, h, hs =>
      have hrest : rem = rest.length - 1 := by simp at h; omega
      have hlen : (pre ++ a :: rest).length - (pre.length + 1) = rest.length := by
        simp; omega
      have hin := innerLoop_eq pre rest a []
      simp only [List.length_nil, Nat.add_zero, List.nil_append] at hin
      rw [exchPass_of_max rest a (fun x hx => List.rel_of_pairwise_cons hs hx)] at hin
      simp only [outerLoop, hlen, hin]
      have e : pre ++ a :: rest = (pre ++ [a]) ++ rest := by simp
      have e2 : pre.length + 1 = (pre ++ [a]).length := by simp
      rw [e, e2]
      exact ih (pre ++ [a]) rest hrest (List.Pairwise.of_cons hs)

/-- C3: `GetLeagueTable` returns a permutation of the teams sorted in descending
lexicographic order of the key (Points, GoalsFor - GoalsAgainst, GoalsFor); three teams
with points 10, 10, 7 and goal differences 2, 5, 1 come out as index 1, index 0, index 2. -/
theorem C3_table_sorted_perm (teams : List Team) :
    (GetLeagueTable teams).Perm teams ∧
    (∀ (i j : Nat) (hij : i < j) (hj : j < (GetLeagueTable teams).length),
      keyLE (tableKey ((GetLeagueTable teams)[j])) (tableKey ((GetLeagueTable teams)[i]))) ∧
    (GetLeagueTable teams).Pairwise (fun x y => keyLE (tableKey y) (tableKey x)) ∧
    GetLeagueTable [mkRow 0 10 2 0, mkRow 1 10 5 0, mkRow 2 7 1 0]
      = [mkRow 1 10 5 0, mkRow 0 10 2 0, mkRow 2 7 1 0] := by
  obtain ⟨out, ho, hp, hs⟩ := outerLoop_sorts (teams.length - 1) [] teams rfl
  simp only [List.length_nil, List.nil_append] at ho
  have hs2 : (GetLeagueTable teams).Pairwise (fun x y => keyLE (tableKey y) (tableKey x)) := by
    unfold GetLeagueTable; rw [ho]
    exact hs.imp (fun h => (keyLE_iff _ _).mpr h)
  refine ⟨by unfold GetLeagueTable; rw [ho]; exact hp, ?_, hs2, by decide⟩
  intro i j hij hj
  exact (List.pairwise_iff_getElem.mp hs2) i j (by omega) hj hij

/-- The three-team example: the table is a permutation of the input, in descending key
order. -/
theorem C3_table_sorted_perm_witness :
    (GetLeagueTable [mkRow 0 10 2 0, mkRow 1 10 5 0, mkRow 2 7 1 0]).Perm
      [mkRow 0 10 2 0, mkRow 1 10 5 0, mkRow 2 7 1 0] ∧
    (GetLeagueTable [mkRow 0 10 2 0, mkRow 1 10 5 0, mkRow 2 7 1 0]).Pairwise
      (fun x y => keyLE (tableKey y) (tableKey x)) :=
  ⟨(C3_table_sorted_perm [mkRow 0 10 2 0, mkRow 1 10 5 0, mkRow 2 7 1 0]).1,
    (C3_table_sorted_perm [mkRow 0 10 2 0, mkRow 1 10 5 0, mkRow 2 7 1 0]).2.2.1⟩

/-- C5, refuted as stated: in `tiedTeams` the teams with ids 1 and 2 are fully tied and
the team with id 1 comes first, yet the table lists id 2 before id 1. -/
theorem C5_table_not_stable :
    tableKey (mkRow 1 1 0 0) = tableKey (mkRow 2 1 0 0) ∧
    List.Sublist [mkRow 1 1 0 0, mkRow 2 1 0 0] tiedTeams ∧
    GetLeagueTable tiedTeams = [mkRow 3 3 0 0, mkRow 2 1 0 0, mkRow 1 1 0 0] ∧
    ¬ List.Sublist [mkRow 1 1 0 0, mkRow 2 1 0 0] (GetLeagueTable tiedTeams) := by
  decide

/-- C5, amended: when the teams are already in descending key order `GetLeagueTable`
returns them unchanged, so fully tied teams keep their input order; on other inputs the
relative order of fully tied teams is not guaranteed. -/
theorem C5_table_keeps_sorted_input (teams : List Team)
    (hs : teams.Pairwise (fun x y => keyLE (tableKey y) (tableKey x))) :
    GetLeagueTable teams = teams := by
  have h := outerLoop_of_sorted (teams.length - 1) [] teams rfl
    (hs.imp (fun h => (keyLE_iff _ _).mp h))
  simpa [GetLeagueTable] using h

/-- Two fully tied teams behind a leader, already in order. -/
theorem C5_table_keeps_sorted_input_witness :
    [mkRow 3 3 0 0, mkRow 1 1 0 0, mkRow 2 1 0 0].Pairwise
        (fun x y => keyLE (tableKey y) (tableKey x)) ∧
    GetLeagueTable [mkRow 3 3 0 0, mkRow 1 1 0 0, mkRow 2 1 0 0]
      = [mkRow 3 3 0 0, mkRow 1 1 0 0, mkRow 2 1 0 0] :=
  ⟨by decide, C5_table_keeps_sorted_input _ (by decide)⟩

/-! ## GenerateFixtures: the rotation -/

theorem getD_set (t : List Team) (i j : Nat) (x : Team) (hi : i < t.length) :
    (t.set i x).getD j zeroTeam = if j = i then x else t.getD j zeroTeam := by
  simp only [List.getD_eq_getElem?_getD, List.getElem?_set]
  by_cases h : i = j
  · subst h; simp [hi]
  · have h2 : ¬ j = i := fun e => h e.symm
    simp [h, h2]

theorem shiftLoop_length (k : Nat) (t : List Team) : (shiftLoop k t).length = t.length := by
  induction k generalizing t with
  | zero => simp [shiftLoop]
  | succ k ih =>
    cases k with
    | zero => simp [shiftLoop]
    | succ k => simp [shiftLoop, ih]

theorem shiftLoop_getD (k : Nat) (t : List Team) (hk : k < t.length) (j : Nat) :
    (shiftLoop k t).getD j zeroTeam
      = if 2 ≤ j ∧ j ≤ k then t.getD (j - 1) zeroTeam else t.getD j zeroTeam := by
  induction k generalizing t with
  | zero =>
    have : ¬ (2 ≤ j ∧ j ≤ 0) := by omega
    rw [if_neg this]; simp [shiftLoop]
  | succ k ih =>
    cases k with
    | zero =>
      have : ¬ (2 ≤ j ∧ j ≤ 0 + 1) := by omega
      rw [if_neg this]; simp [shiftLoop]
    | succ k =>
      simp only [shiftLoop]
      rw [ih _ (by simp; omega)]
      rw [getD_set _ _ _ _ hk, getD_set _ _ _ _ hk]
      by_cases h1 : 2 ≤ j ∧ j ≤ k + 1
      · have h2 : 2 ≤ j ∧ j ≤ k + 1 + 1 := by omega
        have h3 : ¬ j - 1 = k + 2 := by omega
        simp [h1, h2, h3]
      · by_cases h4 : j = k + 2
        · subst h4
          simp
        · have h2 : ¬ (2 ≤ j ∧ j ≤ k + 1 + 1) := by omega
          simp [h1, h2, h4]

theorem rotateTeams_length (n : Nat) (t : List Team) : (rotateTeams n t).length = t.length := by
  unfold rotateTeams
  split <;> simp [shiftLoop_length]

theorem rotateTeams_getD (n : Nat) (t : List Team) (hn : t.length = n) (hn2 : 2 ≤ n)
    (k : Nat) (hk : k < n) :
    (rotateTeams n t).getD k zeroTeam = t.getD (rotIdx n k) zeroTeam := by
  unfold rotateTeams rotIdx
  by_cases h : n > 2
  · simp only [h, if_true]
    rw [getD_set _ _ _ _ (by rw [shiftLoop_length]; omega), shiftLoop_getD _ _ (by omega)]
    by_cases h1 : k = 1
    · simp [h1]
    · by_cases h0 : k = 0
      · simp [h0]
      · have : 2 ≤ k ∧ k ≤ n - 1 := by omega
        simp [h0, h1, this]
  · have e : n = 2 := by omega
    subst e
    have : k = 0 ∨ k = 1 := by omega
    rcases this with rfl | rfl <;> simp

theorem iterate_rotate_length (n r : Nat) (t : List Team) :
    ((rotateTeams n)^[r] t).length = t.length := by
  induction r generalizing t with
  | zero => rfl
  | succ r ih => rw [Function.iterate_succ_apply, ih, rotateTeams_length]

theorem arrIdx_lt (n r k : Nat) (hn : 2 ≤ n) (hr : r ≤ n - 1) (hk : k < n) :
    arrIdx n r k < n := by
  unfold arrIdx
  split_ifs <;> omega

theorem rotIdx_lt (n k : Nat) (hn : 2 ≤ n) (hk : k < n) : rotIdx n k < n := by
  unfold rotIdx
  split_ifs <;> omega

theorem arrIdx_succ (n r k : Nat) (hn : 2 ≤ n) (hr : r + 1 ≤ n - 1) (hk : k < n) :
    arrIdx n (r + 1) k = arrIdx n r (rotIdx n k) := by
  unfold arrIdx rotIdx
  split_ifs <;> omega

theorem iterate_rotate_getD (n r : Nat) (t : List Team) (hn : t.length = n) (hn2 : 2 ≤ n)
    (hr : r ≤ n - 1) (k : Nat) (hk : k < n) :
    ((rotateTeams n)^[r] t).getD k zeroTeam = t.getD (arrIdx n r k) zeroTeam := by
  induction r generalizing k with
  | zero =>
    have : arrIdx n 0 k = k := by unfold arrIdx; split_ifs <;> omega
    simp [this]
  | succ r ih =>
    rw [Function.iterate_succ_apply']
    rw [rotateTeams_getD n _ (by rw [iterate_rotate_length]; exact hn) hn2 k hk]
    rw [ih (by omega) _ (rotIdx_lt n k hn2 hk), arrIdx_succ n r k hn2 hr hk]

/-! ## GenerateFixtures: the loops unrolled -/

theorem roundsLoop_eq (n R k r0 : Nat) (t : List Team) :
    roundsLoop n R k r0 t
      = (List.range k).flatMap (fun j => roundFixtures ((rotateTeams n)^[j] t) n R (r0 + j)) := by
  induction k generalizing r0 t with
  | zero => simp [roundsLoop]
  | succ k ih =>
    rw [roundsLoop, ih, List.range_succ_eq_map, List.flatMap_cons, List.flatMap_map]
    simp only [Function.iterate_zero, id_eq, Nat.add_zero, Function.comp_def,
      Function.iterate_succ_apply]
    congr 1
    apply List.flatMap_congr
    intro j _
    congr 1
    omega

/-- The fixtures of `GenerateFixtures` as one expression over rounds and pair indices. -/
theorem GenerateFixtures_eq (teams : List Team) (h2 : 2 ≤ teams.length) :
    GenerateFixtures teams
      = (List.range ((schedulingTeams teams).length - 1)).flatMap (fun r =>
          (List.range ((schedulingTeams teams).length / 2)).flatMap (fun i =>
            emitPair ((schedulingTeams teams).length - 1) r
              ((schedulingTeams teams).getD
                (arrIdx (schedulingTeams teams).length r i) zeroTeam)
              ((schedulingTeams teams).getD
                (arrIdx (schedulingTeams teams).length r
                  ((schedulingTeams teams).length - 1 - i)) zeroTeam))) := by
  have hlen : 2 ≤ (schedulingTeams teams).length := by
    unfold schedulingTeams
    split
    · simp; omega
    · exact h2
  unfold GenerateFixtures
  simp only [show ¬ teams.length < 2 by omega, if_false]
  rw [roundsLoop_eq]
  apply List.flatMap_congr
  intro r hr
  have hr' := List.mem_range.mp hr
  unfold roundFixtures
  apply List.flatMap_congr
  intro i hi
  have hi' := List.mem_range.mp hi
  unfold pairFixtures
  simp only [Nat.zero_add]
  rw [iterate_rotate_getD _ r _ rfl hlen (by omega) i (by omega),
    iterate_rotate_getD _ r _ rfl hlen (by omega) _ (by omega)]

/-! ## GenerateFixtures: the working slice -/

theorem schedulingTeams_length (teams : List Team) :
    (schedulingTeams teams).length = teams.length + teams.length % 2 := by
  unfold schedulingTeams
  split
  · simp; omega
  · omega

theorem schedulingTeams_even (teams : List Team) : (schedulingTeams teams).length % 2 = 0 := by
  rw [schedulingTeams_length]; omega

theorem schedulingTeams_getD_lt (teams : List Team) (x : Nat) (hx : x < teams.length) :
    (schedulingTeams teams).getD x zeroTeam = teams.getD x zeroTeam := by
  unfold schedulingTeams
  split
  · exact List.getD_append _ _ _ _ hx
  · rfl

theorem schedulingTeams_getD_ge (teams : List Team) (x : Nat) (hx : ¬ x < teams.length)
    (hx2 : x < (schedulingTeams teams).length) :
    (schedulingTeams teams).getD x zeroTeam = byeTeam := by
  have hl := schedulingTeams_length teams
  unfold schedulingTeams at hx2 ⊢
  split
  · have e : x = teams.length := by
      rw [if_pos (by assumption)] at hx2
      simp at hx2; omega
    subst e
    rw [List.getD_append_right _ _ _ _ (Nat.le_refl _)]
    simp
  · rw [if_neg (by assumption)] at hx2
    omega

theorem getD_mem (teams : List Team) (x : Nat) (hx : x < teams.length) :
    teams.getD x zeroTeam ∈ teams := by
  rw [List.getD_eq_getElem _ _ hx]
  exact List.getElem_mem _

theorem validTeams_id_inj (teams : List Team) (hv : validTeams teams) (x y : Nat)
    (hx : x < teams.length) (hy : y < teams.length)
    (h : (teams.getD x zeroTeam).ID = (teams.getD y zeroTeam).ID) : x = y := by
  have hn := hv.1
  rw [List.getD_eq_getElem _ _ hx, List.getD_eq_getElem _ _ hy] at h
  have hx' : x < (teams.map (fun t => t.ID)).length := by simpa using hx
  have hy' : y < (teams.map (fun t => t.ID)).length := by simpa using hy
  have : (teams.map (fun t => t.ID))[x] = (teams.map (fun t => t.ID))[y] := by
    simpa using h
  exact (hn.getElem_inj_iff).mp this

theorem emitPair_real (R r : Nat) (a b : Team) (ha : a.Name ≠ "BYE") (hb : b.Name ≠ "BYE")
    (ha0 : a.ID ≠ 0) (hb0 : b.ID ≠ 0) :
    emitPair R r a b = [firstHalfFixture (r + 1) a b, secondHalfFixture (r + 1) R a b] := by
  simp [emitPair, ha, hb, ha0, hb0]

theorem emitPair_bye (R r : Nat) (a b : Team) (h : a.Name = "BYE" ∨ b.Name = "BYE") :
    emitPair R r a b = [] := by
  simp [emitPair, h]

/-- For valid teams the fixtures are the index calendar of the working slice, without the
entries of the BYE slot, read through the teams' ids. -/
theorem GenerateFixtures_eq_idx (teams : List Team) (h2 : 2 ≤ teams.length)
    (hv : validTeams teams) :
    GenerateFixtures teams
      = ((idxSchedule (schedulingTeams teams).length).filter
          (fun e => decide (e.2.1 < teams.length ∧ e.2.2 < teams.length))).map
          (fixtureOf (schedulingTeams teams)) := by
  have hlen := schedulingTeams_length teams
  rw [GenerateFixtures_eq teams h2]
  unfold idxSchedule
  rw [List.filter_flatMap, List.map_flatMap]
  apply List.flatMap_congr
  intro r hr
  have hr' := List.mem_range.mp hr
  rw [List.filter_flatMap, List.map_flatMap]
  apply List.flatMap_congr
  intro i hi
  have hi' := List.mem_range.mp hi
  have hx := arrIdx_lt (schedulingTeams teams).length r i (by omega) (by omega) (by omega)
  have hy := arrIdx_lt (schedulingTeams teams).length r
    ((schedulingTeams teams).length - 1 - i) (by omega) (by omega) (by omega)
  generalize arrIdx (schedulingTeams teams).length r i = x at hx ⊢
  generalize arrIdx (schedulingTeams teams).length r
    ((schedulingTeams teams).length - 1 - i) = y at hy ⊢
  by_cases hxy : x < teams.length ∧ y < teams.length
  · obtain ⟨hxN, hyN⟩ := hxy
    have hxm := getD_mem teams x hxN
    have hym := getD_mem teams y hyN
    rw [emitPair_real _ _ _ _
      (by rw [schedulingTeams_getD_lt _ _ hxN]; exact (hv.2 _ hxm).2)
      (by rw [schedulingTeams_getD_lt _ _ hyN]; exact (hv.2 _ hym).2)
      (by rw [schedulingTeams_getD_lt _ _ hxN]; exact (hv.2 _ hxm).1)
      (by rw [schedulingTeams_getD_lt _ _ hyN]; exact (hv.2 _ hym).1)]
    simp [List.filter, hxN, hyN, fixtureOf, firstHalfFixture, secondHalfFixture]
  · have hb : ((schedulingTeams teams).getD x zeroTeam).Name = "BYE" ∨
        ((schedulingTeams teams).getD y zeroTeam).Name = "BYE" := by
      by_cases hxN : x < teams.length
      · right
        rw [schedulingTeams_getD_ge teams y (by tauto) hy]; rfl
      · left
        rw [schedulingTeams_getD_ge teams x hxN hx]; rfl
    rw [emitPair_bye _ _ _ _ hb]
    have hyx : ¬ (y < teams.length ∧ x < teams.length) := by tauto
    simp [List.filter, hxy, hyx]

/-! ## GenerateFixtures: the calendar on indices -/

theorem arrIdx_inj (n r k k' : Nat) (hn : 2 ≤ n) (hr : r ≤ n - 1) (hk : k < n) (hk' : k' < n)
    (h : arrIdx n r k = arrIdx n r k') : k = k' := by
  unfold arrIdx at h
  split_ifs at h <;> omega

theorem arrIdx_surj_pair (n x y : Nat) (hn : 2 ≤ n) (he : n % 2 = 0) (hx : x < n) (hy : y < n)
    (hxy : x < y) :
    ∃ r i, r < n - 1 ∧ i < n / 2 ∧
      ((arrIdx n r i = x ∧ arrIdx n r (n - 1 - i) = y) ∨
       (arrIdx n r i = y ∧ arrIdx n r (n - 1 - i) = x)) := by
  by_cases hx0 : x = 0
  · refine ⟨n - 1 - y, 0, by omega, by omega, Or.inl ?_⟩
    unfold arrIdx
    constructor
    · simp [hx0]
    · split_ifs <;> omega
  · by_cases hpar : (x + y) % 2 = 0
    · refine ⟨n - 1 - (x + y) / 2, (y - x) / 2, by omega, by omega, Or.inr ?_⟩
      unfold arrIdx
      constructor <;> split_ifs <;> omega
    · by_cases hsum : x + y ≤ n - 1
      · refine ⟨(n - 1 - x - y) / 2, x + (n - 1 - x - y) / 2, by omega, by omega, Or.inl ?_⟩
        unfold arrIdx
        constructor <;> split_ifs <;> omega
      · refine ⟨(3 * (n - 1) - x - y) / 2, x + (3 * (n - 1) - x - y) / 2 - (n - 1),
          by omega, by omega, Or.inl ?_⟩
        unfold arrIdx
        constructor <;> split_ifs <;> omega

theorem mem_idxSchedule (n : Nat) (e : Nat × Nat × Nat) :
    e ∈ idxSchedule n ↔ ∃ r i, r < n - 1 ∧ i < n / 2 ∧
      (e = (r + 1, arrIdx n r i, arrIdx n r (n - 1 - i)) ∨
       e = (r + 1 + (n - 1), arrIdx n r (n - 1 - i), arrIdx n r i)) := by
  unfold idxSchedule
  simp only [List.mem_flatMap, List.mem_range, List.mem_cons, List.mem_singleton,
    List.not_mem_nil, or_false]
  constructor
  · rintro ⟨r, hr, i, hi, h⟩
    exact ⟨r, i, hr, hi, h⟩
  · rintro ⟨r, i, hr, hi, h⟩
    exact ⟨r, hr, i, hi, h⟩

theorem idxSchedule_pair_mem (n x y : Nat) (hn : 2 ≤ n) (he : n % 2 = 0) (hx : x < n)
    (hy : y < n) (hxy : x ≠ y) : (x, y) ∈ (idxSchedule n).map Prod.snd := by
  rw [List.mem_map]
  rcases Nat.lt_or_gt_of_ne hxy with h | h
  · obtain ⟨r, i, hr, hi, hc⟩ := arrIdx_surj_pair n x y hn he hx hy h
    rcases hc with ⟨h1, h2⟩ | ⟨h1, h2⟩
    · exact ⟨(r + 1, x, y), (mem_idxSchedule n _).mpr ⟨r, i, hr, hi, Or.inl (by rw [h1, h2])⟩, rfl⟩
    · exact ⟨(r + 1 + (n - 1), x, y),
        (mem_idxSchedule n _).mpr ⟨r, i, hr, hi, Or.inr (by rw [h1, h2])⟩, rfl⟩
  · obtain ⟨r, i, hr, hi, hc⟩ := arrIdx_surj_pair n y x hn he hy hx h
    rcases hc with ⟨h1, h2⟩ | ⟨h1, h2⟩
    · exact ⟨(r + 1 + (n - 1), x, y),
        (mem_idxSchedule n _).mpr ⟨r, i, hr, hi, Or.inr (by rw [h1, h2])⟩, rfl⟩
    · exact ⟨(r + 1, x, y), (mem_idxSchedule n _).mpr ⟨r, i, hr, hi, Or.inl (by rw [h1, h2])⟩, rfl⟩

theorem idxSchedule_bounds (n : Nat) (hn : 2 ≤ n) (he : n % 2 = 0) (e : Nat × Nat × Nat)
    (h : e ∈ idxSchedule n) :
    1 ≤ e.1 ∧ e.1 ≤ 2 * (n - 1) ∧ e.2.1 < n ∧ e.2.2 < n ∧ e.2.1 ≠ e.2.2 := by
  obtain ⟨r, i, hr, hi, hc⟩ := (mem_idxSchedule n e).mp h
  have h1 := arrIdx_lt n r i hn (by omega) (by omega)
  have h2 := arrIdx_lt n r (n - 1 - i) hn (by omega) (by omega)
  have h3 : arrIdx n r i ≠ arrIdx n r (n - 1 - i) := fun hh => by
    have := arrIdx_inj n r i (n - 1 - i) hn (by omega) (by omega) (by omega) hh
    omega
  rcases hc with rfl | rfl
  · exact ⟨by dsimp only; omega, by dsimp only; omega, h1, h2, h3⟩
  · exact ⟨by dsimp only; omega, by dsimp only; omega, h2, h1, fun hh => h3 hh.symm⟩

theorem length_flatMap_const {α β : Type} (l : List α) (f : α → List β) (c : Nat)
    (h : ∀ a ∈ l, (f a).length = c) : (l.flatMap f).length = l.length * c := by
  induction l with
  | nil => simp
  | cons a l ih =>
    rw [List.flatMap_cons, List.length_append, h a (List.mem_cons_self _ _),
      ih (fun b hb => h b (List.mem_cons_of_mem _ hb)), List.length_cons]
    ring

theorem idxSchedule_length (n : Nat) : (idxSchedule n).length = (n - 1) * (n / 2 * 2) := by
  unfold idxSchedule
  rw [length_flatMap_const _ _ (n / 2 * 2), List.length_range]
  intro r _
  rw [length_flatMap_const _ _ 2, List.length_range]
  intro i _
  rfl

theorem idxSchedule_pairs_nodup (n : Nat) (hn : 2 ≤ n) (he : n % 2 = 0) :
    ((idxSchedule n).map Prod.snd).Nodup := by
  have hsub : (Finset.range n).offDiag ⊆ ((idxSchedule n).map Prod.snd).toFinset := by
    intro p hp
    rw [Finset.mem_offDiag] at hp
    rw [List.mem_toFinset]
    exact idxSchedule_pair_mem n p.1 p.2 hn he (Finset.mem_range.mp hp.1)
      (Finset.mem_range.mp hp.2.1) hp.2.2
  have hcard : (Finset.range n).offDiag.card = ((idxSchedule n).map Prod.snd).length := by
    rw [Finset.offDiag_card, Finset.card_range, List.length_map, idxSchedule_length]
    obtain ⟨k, rfl⟩ : ∃ k, n = 2 * k + 2 := ⟨(n - 2) / 2, by omega⟩
    have e1 : (2 * k + 2) / 2 * 2 = 2 * k + 2 := by omega
    have e2 : 2 * k + 2 - 1 = 2 * k + 1 := by omega
    rw [e1, e2]
    apply Nat.sub_eq_of_eq_add
    ring
  have h1 := Finset.card_le_card hsub
  have h2 := List.toFinset_card_le ((idxSchedule n).map Prod.snd)
  have h3 : ((idxSchedule n).map Prod.snd).toFinset.card
      = ((idxSchedule n).map Prod.snd).length := by omega
  have := (Multiset.toFinset_card_eq_card_iff_nodup
    (m := (((idxSchedule n).map Prod.snd : List (Nat × Nat)) : Multiset (Nat × Nat)))).mp
    (by simpa using h3)
  simpa using this

/-! ## GenerateFixtures: every ordered pair exactly once -/

theorem realPairs_eq (n N : Nat) :
    ((idxSchedule n).filter (fun e => decide (e.2.1 < N ∧ e.2.2 < N))).map Prod.snd
      = ((idxSchedule n).map Prod.snd).filter (fun q => decide (q.1 < N ∧ q.2 < N)) := by
  rw [List.filter_map]
  rfl

theorem realPairs_nodup (n N : Nat) (hn : 2 ≤ n) (he : n % 2 = 0) :
    (((idxSchedule n).filter (fun e => decide (e.2.1 < N ∧ e.2.2 < N))).map Prod.snd).Nodup := by
  rw [realPairs_eq]
  exact (idxSchedule_pairs_nodup n hn he).filter _

theorem realPairs_mem (n N : Nat) (hn : 2 ≤ n) (he : n % 2 = 0) (hN : N ≤ n) (x y : Nat) :
    (x, y) ∈ ((idxSchedule n).filter (fun e => decide (e.2.1 < N ∧ e.2.2 < N))).map Prod.snd
      ↔ x < N ∧ y < N ∧ x ≠ y := by
  rw [realPairs_eq, List.mem_filter]
  constructor
  · rintro ⟨hm, hp⟩
    obtain ⟨e, he1, he2⟩ := List.mem_map.mp hm
    have hb := idxSchedule_bounds n hn he e he1
    rw [he2] at hb
    simp only [decide_eq_true_eq] at hp
    exact ⟨hp.1, hp.2, hb.2.2.2.2⟩
  · rintro ⟨hx, hy, hxy⟩
    exact ⟨idxSchedule_pair_mem n x y hn he (by omega) (by omega) hxy, by simp [hx, hy]⟩

theorem realPairs_length (n N : Nat) (hn : 2 ≤ n) (he : n % 2 = 0) (hN : N ≤ n) :
    ((idxSchedule n).filter (fun e => decide (e.2.1 < N ∧ e.2.2 < N))).length
      = N * (N - 1) := by
  have hnd := realPairs_nodup n N hn he
  have hc := List.toFinset_card_of_nodup hnd
  have hset : (((idxSchedule n).filter
      (fun e => decide (e.2.1 < N ∧ e.2.2 < N))).map Prod.snd).toFinset
      = (Finset.range N).offDiag := by
    ext ⟨x, y⟩
    rw [List.mem_toFinset, realPairs_mem n N hn he hN, Finset.mem_offDiag]
    simp
  rw [hset, Finset.offDiag_card, Finset.card_range, List.length_map] at hc
  rw [← hc, Nat.mul_sub, Nat.mul_one]

theorem mem_getD (teams : List Team) (a : Team) (ha : a ∈ teams) :
    ∃ x, x < teams.length ∧ teams.getD x zeroTeam = a := by
  obtain ⟨x, hx, h⟩ := List.mem_iff_getElem.mp ha
  exact ⟨x, hx, by rw [List.getD_eq_getElem _ _ hx]; exact h⟩

theorem fixtureOf_ids (teams : List Team) (e : Nat × Nat × Nat)
    (h1 : e.2.1 < teams.length) (h2 : e.2.2 < teams.length) :
    (fixtureOf (schedulingTeams teams) e).HomeTeamID = (teams.getD e.2.1 zeroTeam).ID ∧
    (fixtureOf (schedulingTeams teams) e).AwayTeamID = (teams.getD e.2.2 zeroTeam).ID ∧
    (fixtureOf (schedulingTeams teams) e).Week = (e.1 : Int) := by
  refine ⟨?_, ?_, rfl⟩
  · show ((schedulingTeams teams).getD e.2.1 zeroTeam).ID = _
    rw [schedulingTeams_getD_lt _ _ h1]
  · show ((schedulingTeams teams).getD e.2.2 zeroTeam).ID = _
    rw [schedulingTeams_getD_lt _ _ h2]

theorem schedulingTeams_facts (teams : List Team) (h2 : 2 ≤ teams.length) :
    2 ≤ (schedulingTeams teams).length ∧ (schedulingTeams teams).length % 2 = 0 ∧
    teams.length ≤ (schedulingTeams teams).length ∧
    (schedulingTeams teams).length - 1 = halfRounds teams.length := by
  have := schedulingTeams_length teams
  unfold halfRounds
  split_ifs <;> omega

theorem countP_eq_one_of_nodup_mem {α : Type} [DecidableEq α] (l : List α) (a : α)
    (hn : l.Nodup) (ha : a ∈ l) : l.countP (fun b => decide (b = a)) = 1 := by
  induction l with
  | nil => simp at ha
  | cons b l ih =>
    rw [List.nodup_cons] at hn
    rw [List.countP_cons]
    by_cases hb : b = a
    · subst hb
      have : l.countP (fun c => decide (c = b)) = 0 := by
        rw [List.countP_eq_zero]
        intro c hc
        simp only [decide_eq_true_eq]
        rintro rfl
        exact hn.1 hc
      simp [this]
    · have ha' : a ∈ l := by
        rcases List.mem_cons.mp ha with h | h
        · exact absurd h.symm hb
        · exact h
      simp [hb, ih hn.2 ha']

theorem fixtures_count_pair (teams : List Team) (h2 : 2 ≤ teams.length)
    (hv : validTeams teams) (x y : Nat) (hx : x < teams.length) (hy : y < teams.length)
    (hxy : x ≠ y) :
    (GenerateFixtures teams).countP (fun m =>
      decide (m.HomeTeamID = (teams.getD x zeroTeam).ID ∧
        m.AwayTeamID = (teams.getD y zeroTeam).ID)) = 1 := by
  obtain ⟨hn, he, hN, -⟩ := schedulingTeams_facts teams h2
  rw [GenerateFixtures_eq_idx teams h2 hv, List.countP_map]
  have hcount := countP_eq_one_of_nodup_mem _ (x, y)
    (realPairs_nodup (schedulingTeams teams).length teams.length hn he)
    ((realPairs_mem _ _ hn he hN x y).mpr ⟨hx, hy, hxy⟩)
  rw [List.countP_map] at hcount
  rw [← hcount]
  apply List.countP_congr
  intro e hmem
  have hp := (List.mem_filter.mp hmem).2
  simp only [decide_eq_true_eq] at hp
  obtain ⟨i1, i2, -⟩ := fixtureOf_ids teams e hp.1 hp.2
  simp only [Function.comp, decide_eq_true_eq, i1, i2]
  constructor
  · rintro ⟨e1, e2⟩
    have k1 := validTeams_id_inj teams hv _ _ hp.1 hx e1
    have k2 := validTeams_id_inj teams hv _ _ hp.2 hy e2
    exact Prod.ext k1 k2
  · intro h
    rw [h]
    exact ⟨rfl, rfl⟩

theorem fixtures_only_pairs (teams : List Team) (h2 : 2 ≤ teams.length)
    (hv : validTeams teams) (m : Match) (hm : m ∈ GenerateFixtures teams) :
    ∃ x y, x < teams.length ∧ y < teams.length ∧ x ≠ y ∧
      m.HomeTeamID = (teams.getD x zeroTeam).ID ∧ m.AwayTeamID = (teams.getD y zeroTeam).ID := by
  obtain ⟨hn, he, hN, -⟩ := schedulingTeams_facts teams h2
  rw [GenerateFixtures_eq_idx teams h2 hv] at hm
  obtain ⟨e, hmem, rfl⟩ := List.mem_map.mp hm
  obtain ⟨hS, hp⟩ := List.mem_filter.mp hmem
  simp only [decide_eq_true_eq] at hp
  have hb := idxSchedule_bounds _ hn he e hS
  obtain ⟨i1, i2, -⟩ := fixtureOf_ids teams e hp.1 hp.2
  exact ⟨e.2.1, e.2.2, hp.1, hp.2, hb.2.2.2.2, i1, i2⟩

theorem fixtures_length (teams : List Team) (hv : validTeams teams) :
    (GenerateFixtures teams).length = teams.length * (teams.length - 1) := by
  by_cases h2 : 2 ≤ teams.length
  · obtain ⟨hn, he, hN, -⟩ := schedulingTeams_facts teams h2
    rw [GenerateFixtures_eq_idx teams h2 hv, List.length_map, realPairs_length _ _ hn he hN]
  · have h0 : teams.length = 0 ∨ teams.length = 1 := by omega
    unfold GenerateFixtures
    simp only [show teams.length < 2 by omega, if_true, List.length_nil]
    rcases h0 with h | h <;> rw [h]

theorem countP_or_of_disjoint {α : Type} (l : List α) (p q : α → Bool)
    (h : ∀ a ∈ l, ¬ (p a = true ∧ q a = true)) :
    l.countP (fun a => p a || q a) = l.countP p + l.countP q := by
  induction l with
  | nil => simp
  | cons a l ih =>
    have ih' := ih (fun b hb => h b (List.mem_cons_of_mem _ hb))
    have ha := h a (List.mem_cons_self _ _)
    simp only [List.countP_cons, ih']
    cases hp : p a <;> cases hq : q a <;> simp_all <;> omega

/-- C1: for teams with pairwise distinct non-zero ids and none named "BYE" (any number of
them), every ordered pair of distinct teams has exactly one fixture with the first at
home and the second away, there is no other fixture, the list has `N*(N-1)` fixtures, and
every unordered pair meets exactly twice. -/
theorem C1_every_ordered_pair_once (teams : List Team) (hv : validTeams teams) :
    (∀ a ∈ teams, ∀ b ∈ teams, a ≠ b →
      (GenerateFixtures teams).countP
        (fun m => decide (m.HomeTeamID = a.ID ∧ m.AwayTeamID = b.ID)) = 1) ∧
    (∀ m ∈ GenerateFixtures teams, ∃ a ∈ teams, ∃ b ∈ teams, a ≠ b ∧
      m.HomeTeamID = a.ID ∧ m.AwayTeamID = b.ID) ∧
    (GenerateFixtures teams).length = teams.length * (teams.length - 1) ∧
    (∀ a ∈ teams, ∀ b ∈ teams, a ≠ b →
      (GenerateFixtures teams).countP (fun m =>
        decide (m.HomeTeamID = a.ID ∧ m.AwayTeamID = b.ID) ||
        decide (m.HomeTeamID = b.ID ∧ m.AwayTeamID = a.ID)) = 2) := by
  have hone : ∀ a ∈ teams, ∀ b ∈ teams, a ≠ b →
      a.ID ≠ b.ID ∧ (GenerateFixtures teams).countP
        (fun m => decide (m.HomeTeamID = a.ID ∧ m.AwayTeamID = b.ID)) = 1 := by
    intro a ha b hb hab
    obtain ⟨x, hx, rfl⟩ := mem_getD teams a ha
    obtain ⟨y, hy, rfl⟩ := mem_getD teams b hb
    have hxy : x ≠ y := fun h => hab (by rw [h])
    exact ⟨fun h => hxy (validTeams_id_inj teams hv x y hx hy h),
      fixtures_count_pair teams (by omega) hv x y hx hy hxy⟩
  refine ⟨fun a ha b hb hab => (hone a ha b hb hab).2, ?_, fixtures_length teams hv, ?_⟩
  · intro m hm
    by_cases h2 : 2 ≤ teams.length
    · obtain ⟨x, y, hx, hy, hxy, h1, h3⟩ := fixtures_only_pairs teams h2 hv m hm
      refine ⟨_, getD_mem teams x hx, _, getD_mem teams y hy, ?_, h1, h3⟩
      intro h
      exact hxy (validTeams_id_inj teams hv x y hx hy (by rw [h]))
    · unfold GenerateFixtures at hm
      simp [show teams.length < 2 by omega] at hm
  · intro a ha b hb hab
    have h1 := hone a ha b hb hab
    have h2 := hone b hb a ha (fun h => hab h.symm)
    rw [countP_or_of_disjoint, h1.2, h2.2]
    intro m _ hc
    simp only [decide_eq_true_eq] at hc
    exact h1.1 (hc.1.1.symm.trans hc.2.1)

/-- Four teams give 12 fixtures, five teams give 20. -/
theorem C1_every_ordered_pair_once_witness :
    validTeams fourTeams ∧ (GenerateFixtures fourTeams).length = 12 ∧
    validTeams fiveTeams ∧ (GenerateFixtures fiveTeams).length = 20 :=
  ⟨by decide, (C1_every_ordered_pair_once fourTeams (by decide)).2.2.1,
    by decide, (C1_every_ordered_pair_once fiveTeams (by decide)).2.2.1⟩

/-! ## GenerateFixtures: the fixtures of one week -/

theorem flatMap_eq_nil_of_forall {α β : Type} (l : List α) (g : α → List β)
    (h : ∀ a ∈ l, g a = []) : l.flatMap g = [] := by
  induction l with
  | nil => rfl
  | cons a l ih =>
    rw [List.flatMap_cons, h a (List.mem_cons_self _ _),
      ih (fun b hb => h b (List.mem_cons_of_mem _ hb))]
    rfl

theorem flatMap_range_single {β : Type} (k r0 : Nat) (g : Nat → List β) (hr0 : r0 < k)
    (hz : ∀ r, r < k → r ≠ r0 → g r = []) : (List.range k).flatMap g = g r0 := by
  induction k with
  | zero => omega
  | succ k ih =>
    rw [List.range_succ, List.flatMap_append]
    by_cases h : r0 = k
    · subst h
      rw [flatMap_eq_nil_of_forall (List.range r0) g (fun a ha =>
        hz a (by have := List.mem_range.mp ha; omega) (by have := List.mem_range.mp ha; omega))]
      simp
    · rw [ih (by omega) (fun r hr hne => hz r (by omega) hne)]
      simp [hz k (by omega) (fun e => h e.symm)]

theorem flatMap_ite_singleton {α β : Type} (l : List α) (P : α → Bool) (E : α → β) :
    l.flatMap (fun i => if P i = true then [E i] else []) = (l.filter P).map E := by
  induction l with
  | nil => rfl
  | cons a l ih =>
    rw [List.flatMap_cons, ih]
    cases h : P a <;> simp [List.filter, h]

theorem week_first_leg (n N r0 : Nat) (hr0 : r0 < n - 1) :
    (idxSchedule n).filter (fun e => decide (e.1 = r0 + 1 ∧ e.2.1 < N ∧ e.2.2 < N))
      = ((List.range (n / 2)).filter
          (fun i => decide (arrIdx n r0 i < N ∧ arrIdx n r0 (n - 1 - i) < N))).map
          (fun i => (r0 + 1, arrIdx n r0 i, arrIdx n r0 (n - 1 - i))) := by
  unfold idxSchedule
  rw [List.filter_flatMap, flatMap_range_single (n - 1) r0 _ hr0]
  · rw [List.filter_flatMap, ← flatMap_ite_singleton]
    apply List.flatMap_congr
    intro i _
    have h2 : ¬ (r0 + 1 + (n - 1) = r0 + 1) := by omega
    by_cases hP : arrIdx n r0 i < N ∧ arrIdx n r0 (n - 1 - i) < N
    · simp [List.filter, hP, h2]
    · simp [List.filter, hP, h2]
  · intro r hr hne
    rw [List.filter_eq_nil_iff]
    intro e he
    simp only [List.mem_flatMap, List.mem_range, List.mem_cons, List.mem_singleton,
      List.not_mem_nil, or_false] at he
    obtain ⟨i, _, rfl | rfl⟩ := he
    · simp only [decide_eq_true_eq]; omega
    · simp only [decide_eq_true_eq]; omega

theorem week_second_leg (n N r0 : Nat) (hr0 : r0 < n - 1) :
    (idxSchedule n).filter
        (fun e => decide (e.1 = r0 + 1 + (n - 1) ∧ e.2.1 < N ∧ e.2.2 < N))
      = ((List.range (n / 2)).filter
          (fun i => decide (arrIdx n r0 i < N ∧ arrIdx n r0 (n - 1 - i) < N))).map
          (fun i => (r0 + 1 + (n - 1), arrIdx n r0 (n - 1 - i), arrIdx n r0 i)) := by
  unfold idxSchedule
  rw [List.filter_flatMap, flatMap_range_single (n - 1) r0 _ hr0]
  · rw [List.filter_flatMap, ← flatMap_ite_singleton]
    apply List.flatMap_congr
    intro i _
    have h2 : ¬ (r0 + 1 = r0 + 1 + (n - 1)) := by omega
    by_cases hP : arrIdx n r0 i < N ∧ arrIdx n r0 (n - 1 - i) < N
    · have hP' : arrIdx n r0 (n - 1 - i) < N ∧ arrIdx n r0 i < N := ⟨hP.2, hP.1⟩
      simp [List.filter, hP, hP', h2]
    · have hP' : ¬ (arrIdx n r0 (n - 1 - i) < N ∧ arrIdx n r0 i < N) := fun h => hP ⟨h.2, h.1⟩
      simp [List.filter, hP, hP', h2]
  · intro r hr hne
    rw [List.filter_eq_nil_iff]
    intro e he
    simp only [List.mem_flatMap, List.mem_range, List.mem_cons, List.mem_singleton,
      List.not_mem_nil, or_false] at he
    obtain ⟨i, _, rfl | rfl⟩ := he
    · simp only [decide_eq_true_eq]; omega
    · simp only [decide_eq_true_eq]; omega

theorem bye_pairing (n r0 : Nat) (hn : 2 ≤ n) (he : n % 2 = 0) (hr0 : r0 < n - 1) :
    ∃ i0, i0 < n / 2 ∧ ∀ i, i < n / 2 →
      ((arrIdx n r0 i < n - 1 ∧ arrIdx n r0 (n - 1 - i) < n - 1) ↔ i ≠ i0) := by
  by_cases h0 : r0 = 0
  · refine ⟨0, by omega, ?_⟩
    intro i hi
    unfold arrIdx
    split_ifs <;> omega
  · by_cases h1 : r0 < n / 2
    · refine ⟨r0, h1, ?_⟩
      intro i hi
      unfold arrIdx
      split_ifs <;> omega
    · refine ⟨n - 1 - r0, by omega, ?_⟩
      intro i hi
      unfold arrIdx
      split_ifs <;> omega

theorem real_pairings_count (n N r0 : Nat) (hn : 2 ≤ n) (hr0 : r0 < n - 1)
    (hN : n = N + N % 2) :
    ((List.range (n / 2)).filter
      (fun i => decide (arrIdx n r0 i < N ∧ arrIdx n r0 (n - 1 - i) < N))).length = N / 2 := by
  rw [← List.countP_eq_length_filter]
  by_cases hpar : N % 2 = 0
  · have hall : List.countP (fun i => decide (arrIdx n r0 i < N ∧ arrIdx n r0 (n - 1 - i) < N))
        (List.range (n / 2)) = (List.range (n / 2)).length := by
      rw [List.countP_eq_length]
      intro i hi
      have hi' := List.mem_range.mp hi
      have h1 := arrIdx_lt n r0 i hn (by omega) (by omega)
      have h2 := arrIdx_lt n r0 (n - 1 - i) hn (by omega) (by omega)
      simp only [decide_eq_true_eq]
      omega
    rw [hall, List.length_range]; omega
  · have hN1 : N = n - 1 := by omega
    subst hN1
    obtain ⟨i0, hi0, hchar⟩ := bye_pairing n r0 hn (by omega) hr0
    have hlen := List.length_eq_countP_add_countP
      (fun i => decide (arrIdx n r0 i < n - 1 ∧ arrIdx n r0 (n - 1 - i) < n - 1))
      (List.range (n / 2))
    have hone := countP_eq_one_of_nodup_mem (List.range (n / 2)) i0 (List.nodup_range _)
      (List.mem_range.mpr hi0)
    have hcongr : List.countP
        (fun a => decide ¬(fun i =>
          decide (arrIdx n r0 i < n - 1 ∧ arrIdx n r0 (n - 1 - i) < n - 1)) a = true)
          (List.range (n / 2))
        = List.countP (fun b => decide (b = i0)) (List.range (n / 2)) := by
      apply List.countP_congr
      intro i hi
      have hc := hchar i (List.mem_range.mp hi)
      simp only [decide_eq_true_eq, decide_not, Bool.not_eq_true', decide_eq_false_iff_not]
      rw [hc]
      exact not_not
    rw [hcongr, hone, List.length_range] at hlen
    omega

theorem pairs_flat_nodup (L : List Nat) (a b : Nat → Nat) (hL : L.Nodup)
    (h1 : ∀ i ∈ L, a i ≠ b i)
    (h2 : ∀ i ∈ L, ∀ j ∈ L, i ≠ j → a i ≠ a j ∧ a i ≠ b j ∧ b i ≠ b j) :
    (L.flatMap (fun i => [a i, b i])).Nodup := by
  rw [List.nodup_flatMap]
  constructor
  · intro i hi
    simp [h1 i hi]
  · refine List.Pairwise.imp_of_mem ?_ hL
    intro i j hi hj hne
    have hij := h2 i hi j hj hne
    have hji := h2 j hj i hi (fun e => hne e.symm)
    simp only [Function.onFun, List.disjoint_cons_left, List.mem_cons, List.mem_singleton,
      List.not_mem_nil, or_false, List.disjoint_nil_left, and_true, not_or]
    exact ⟨⟨hij.1, hij.2.1⟩, fun e => hji.2.1 e.symm, hij.2.2⟩

theorem week_filter_eq (teams : List Team) (h2 : 2 ≤ teams.length) (hv : validTeams teams)
    (w : Nat) :
    (GenerateFixtures teams).filter (fun m => decide (m.Week = (w : Int)))
      = ((idxSchedule (schedulingTeams teams).length).filter
          (fun e => decide (e.1 = w ∧ e.2.1 < teams.length ∧ e.2.2 < teams.length))).map
          (fixtureOf (schedulingTeams teams)) := by
  rw [GenerateFixtures_eq_idx teams h2 hv, List.filter_map, List.filter_filter]
  congr 1
  apply List.filter_congr
  intro e _
  simp [fixtureOf, Function.comp]

theorem posID_inj (teams : List Team) (hv : validTeams teams) (n r : Nat) (hn : 2 ≤ n)
    (hr : r ≤ n - 1) (k k' : Nat) (hk : k < n) (hk' : k' < n)
    (h1 : arrIdx n r k < teams.length) (h2 : arrIdx n r k' < teams.length)
    (h : (teams.getD (arrIdx n r k) zeroTeam).ID = (teams.getD (arrIdx n r k') zeroTeam).ID) :
    k = k' :=
  arrIdx_inj n r k k' hn hr hk hk' (validTeams_id_inj teams hv _ _ h1 h2 h)

theorem week_ids_nodup_aux (teams : List Team) (hv : validTeams teams) (n r : Nat)
    (hn : 2 ≤ n) (he : n % 2 = 0) (hr : r < n - 1) (T : List Team)
    (hT : ∀ x, x < teams.length → T.getD x zeroTeam = teams.getD x zeroTeam) :
    (((List.range (n / 2)).filter (fun i =>
        decide (arrIdx n r i < teams.length ∧ arrIdx n r (n - 1 - i) < teams.length))).flatMap
      (fun i => [(T.getD (arrIdx n r i) zeroTeam).ID,
        (T.getD (arrIdx n r (n - 1 - i)) zeroTeam).ID])).Nodup ∧
    (((List.range (n / 2)).filter (fun i =>
        decide (arrIdx n r i < teams.length ∧ arrIdx n r (n - 1 - i) < teams.length))).flatMap
      (fun i => [(T.getD (arrIdx n r (n - 1 - i)) zeroTeam).ID,
        (T.getD (arrIdx n r i) zeroTeam).ID])).Nodup := by
  have hmem : ∀ i, i ∈ (List.range (n / 2)).filter (fun i =>
      decide (arrIdx n r i < teams.length ∧ arrIdx n r (n - 1 - i) < teams.length)) →
      i < n / 2 ∧ arrIdx n r i < teams.length ∧ arrIdx n r (n - 1 - i) < teams.length := by
    intro i hi
    have := List.mem_filter.mp hi
    simp only [decide_eq_true_eq] at this
    exact ⟨List.mem_range.mp this.1, this.2⟩
  have hL := (List.nodup_range (n / 2)).filter (fun i =>
      decide (arrIdx n r i < teams.length ∧ arrIdx n r (n - 1 - i) < teams.length))
  have key : ∀ i j, i < n / 2 → j < n / 2 →
      arrIdx n r i < teams.length → arrIdx n r (n - 1 - i) < teams.length →
      arrIdx n r j < teams.length → arrIdx n r (n - 1 - j) < teams.length →
      ((T.getD (arrIdx n r i) zeroTeam).ID ≠ (T.getD (arrIdx n r (n - 1 - j)) zeroTeam).ID) ∧
      (i ≠ j → (T.getD (arrIdx n r i) zeroTeam).ID ≠ (T.getD (arrIdx n r j) zeroTeam).ID ∧
        (T.getD (arrIdx n r (n - 1 - i)) zeroTeam).ID
          ≠ (T.getD (arrIdx n r (n - 1 - j)) zeroTeam).ID) := by
    intro i j hi hj a1 a2 b1 b2
    rw [hT _ a1, hT _ a2, hT _ b1, hT _ b2]
    refine ⟨fun h => ?_, fun hne => ⟨fun h => ?_, fun h => ?_⟩⟩
    · have := posID_inj teams hv n r hn (by omega) _ _ (by omega) (by omega) a1 b2 h
      omega
    · exact hne (posID_inj teams hv n r hn (by omega) _ _ (by omega) (by omega) a1 b1 h)
    · have := posID_inj teams hv n r hn (by omega) _ _ (by omega) (by omega) a2 b2 h
      omega
  constructor
  · apply pairs_flat_nodup _ _ _ hL
    · intro i hi
      obtain ⟨h1, h2, h3⟩ := hmem i hi
      exact (key i i h1 h1 h2 h3 h2 h3).1
    · intro i hi j hj hne
      obtain ⟨h1, h2, h3⟩ := hmem i hi
      obtain ⟨k1, k2, k3⟩ := hmem j hj
      have := key i j h1 k1 h2 h3 k2 k3
      exact ⟨(this.2 hne).1, this.1, (this.2 hne).2⟩
  · apply pairs_flat_nodup _ _ _ hL
    · intro i hi
      obtain ⟨h1, h2, h3⟩ := hmem i hi
      exact fun e => (key i i h1 h1 h2 h3 h2 h3).1 e.symm
    · intro i hi j hj hne
      obtain ⟨h1, h2, h3⟩ := hmem i hi
      obtain ⟨k1, k2, k3⟩ := hmem j hj
      have := key i j h1 k1 h2 h3 k2 k3
      have that := key j i k1 h1 k2 k3 h2 h3
      exact ⟨(this.2 hne).2, fun e => that.1 e.symm, (this.2 hne).1⟩

theorem week_facts (teams : List Team) (h2 : 2 ≤ teams.length) (hv : validTeams teams)
    (w : Nat) (hw1 : 1 ≤ w) (hw2 : w ≤ 2 * halfRounds teams.length) :
    ((GenerateFixtures teams).filter (fun m => decide (m.Week = (w : Int)))).length
      = teams.length / 2 ∧
    (((GenerateFixtures teams).filter (fun m => decide (m.Week = (w : Int)))).flatMap
      (fun m => [m.HomeTeamID, m.AwayTeamID])).Nodup := by
  obtain ⟨hn, he, hN, hR⟩ := schedulingTeams_facts teams h2
  have hlen := schedulingTeams_length teams
  rw [← hR] at hw2
  rw [week_filter_eq teams h2 hv w]
  have hnd := fun r (hr : r < (schedulingTeams teams).length - 1) =>
    week_ids_nodup_aux teams hv (schedulingTeams teams).length r hn he hr
      (schedulingTeams teams) (schedulingTeams_getD_lt teams)
  by_cases hleg : w ≤ (schedulingTeams teams).length - 1
  · obtain ⟨r0, rfl⟩ : ∃ r0, w = r0 + 1 := ⟨w - 1, by omega⟩
    have hr0 : r0 < (schedulingTeams teams).length - 1 := by omega
    rw [week_first_leg _ _ r0 hr0]
    refine ⟨?_, ?_⟩
    · rw [List.length_map, List.length_map, real_pairings_count _ _ r0 hn hr0 hlen]
    · rw [List.flatMap_map, List.flatMap_map]
      exact (hnd r0 hr0).1
  · obtain ⟨r0, rfl⟩ : ∃ r0, w = r0 + 1 + ((schedulingTeams teams).length - 1) :=
      ⟨w - 1 - ((schedulingTeams teams).length - 1), by omega⟩
    have hr0 : r0 < (schedulingTeams teams).length - 1 := by omega
    rw [week_second_leg _ _ r0 hr0]
    refine ⟨?_, ?_⟩
    · rw [List.length_map, List.length_map, real_pairings_count _ _ r0 hn hr0 hlen]
    · rw [List.flatMap_map, List.flatMap_map]
      exact (hnd r0 hr0).2

theorem fixtures_week_bounds (teams : List Team) (h2 : 2 ≤ teams.length)
    (hv : validTeams teams) (m : Match) (hm : m ∈ GenerateFixtures teams) :
    ∃ w : Nat, m.Week = (w : Int) ∧ 1 ≤ w ∧ w ≤ 2 * halfRounds teams.length := by
  obtain ⟨hn, he, hN, hR⟩ := schedulingTeams_facts teams h2
  rw [GenerateFixtures_eq_idx teams h2 hv] at hm
  obtain ⟨e, hmem, rfl⟩ := List.mem_map.mp hm
  have hb := idxSchedule_bounds _ hn he e (List.mem_filter.mp hmem).1
  exact ⟨e.1, rfl, hb.1, by rw [← hR]; exact hb.2.1⟩

theorem diff_length {α : Type} [DecidableEq α] (A B : List α) (hA : A.Nodup) (hB : B.Nodup)
    (hsub : ∀ x ∈ B, x ∈ A) :
    (A.filter (fun x => decide (x ∉ B))).length = A.length - B.length := by
  have h1 := List.toFinset_card_of_nodup (hA.filter (fun x => decide (x ∉ B)))
  have h2 := List.toFinset_card_of_nodup hA
  have h3 := List.toFinset_card_of_nodup hB
  have hset : (A.filter (fun x => decide (x ∉ B))).toFinset = A.toFinset \ B.toFinset := by
    ext x
    simp [List.mem_filter]
  have hss : B.toFinset ⊆ A.toFinset := by
    intro x hx
    exact List.mem_toFinset.mpr (hsub x (List.mem_toFinset.mp hx))
  rw [hset, Finset.card_sdiff hss] at h1
  omega

theorem week_idle (teams : List Team) (h2 : 2 ≤ teams.length) (hv : validTeams teams)
    (w : Nat) (hw1 : 1 ≤ w) (hw2 : w ≤ 2 * halfRounds teams.length) :
    ((teams.map (fun t => t.ID)).filter (fun id => decide (id ∉
      ((GenerateFixtures teams).filter (fun m => decide (m.Week = (w : Int)))).flatMap
        (fun m => [m.HomeTeamID, m.AwayTeamID])))).length = teams.length % 2 := by
  obtain ⟨hl, hnd⟩ := week_facts teams h2 hv w hw1 hw2
  rw [diff_length _ _ hv.1 hnd]
  · rw [length_flatMap_const _ (fun m : Match => [m.HomeTeamID, m.AwayTeamID]) 2
      (fun _ _ => rfl), hl, List.length_map]
    omega
  · intro id hid
    obtain ⟨m, hm, hid⟩ := List.mem_flatMap.mp hid
    obtain ⟨x, y, hx, hy, -, e1, e2⟩ :=
      fixtures_only_pairs teams h2 hv m (List.mem_filter.mp hm).1
    rw [List.mem_map]
    simp only [List.mem_cons, List.mem_singleton, List.not_mem_nil, or_false] at hid
    rcases hid with rfl | rfl
    · exact ⟨_, getD_mem teams x hx, e1.symm⟩
    · exact ⟨_, getD_mem teams y hy, e2.symm⟩

/-- C2: for `N ≥ 2` valid teams and `R = halfRounds N` (`N-1` for even `N`, `N` for odd
`N`), every fixture has its week in `1..2R`, every week of `1..2R` has exactly `N/2`
fixtures, within one week no team id occurs twice (as home or away), and the number of
teams without a fixture in a week of `1..2R` is `N % 2`: none for even `N`, one for odd
`N`. -/
theorem C2_weeks_balanced (teams : List Team) (h2 : 2 ≤ teams.length)
    (hv : validTeams teams) :
    (∀ m ∈ GenerateFixtures teams,
      1 ≤ m.Week ∧ m.Week ≤ 2 * (halfRounds teams.length : Int)) ∧
    (∀ w : Int, 1 ≤ w → w ≤ 2 * (halfRounds teams.length : Int) →
      (GenerateFixtures teams).countP (fun m => decide (m.Week = w)) = teams.length / 2) ∧
    (∀ w : Int, (((GenerateFixtures teams).filter (fun m => decide (m.Week = w))).flatMap
      (fun m => [m.HomeTeamID, m.AwayTeamID])).Nodup) ∧
    (∀ w : Int, 1 ≤ w → w ≤ 2 * (halfRounds teams.length : Int) →
      ((teams.map (fun t => t.ID)).filter (fun id => decide (id ∉
        ((GenerateFixtures teams).filter (fun m => decide (m.Week = w))).flatMap
          (fun m => [m.HomeTeamID, m.AwayTeamID])))).length = teams.length % 2) := by
  refine ⟨?_, ?_, ?_, ?_⟩
  · intro m hm
    obtain ⟨w, hw, h1, h3⟩ := fixtures_week_bounds teams h2 hv m hm
    rw [hw]
    omega
  · intro w h1 h3
    obtain ⟨w', rfl⟩ : ∃ w' : Nat, w = (w' : Int) := ⟨w.toNat, by omega⟩
    rw [List.countP_eq_length_filter]
    exact (week_facts teams h2 hv w' (by omega) (by omega)).1
  · intro w
    by_cases hw : 1 ≤ w ∧ w ≤ 2 * (halfRounds teams.length : Int)
    · obtain ⟨w', rfl⟩ : ∃ w' : Nat, w = (w' : Int) := ⟨w.toNat, by omega⟩
      exact (week_facts teams h2 hv w' (by omega) (by omega)).2
    · have hnil : (GenerateFixtures teams).filter (fun m => decide (m.Week = w)) = [] := by
        rw [List.filter_eq_nil_iff]
        intro m hm
        obtain ⟨w', hw', h1, h3⟩ := fixtures_week_bounds teams h2 hv m hm
        simp only [decide_eq_true_eq]
        omega
      rw [hnil]
      exact List.nodup_nil
  · intro w h1 h3
    obtain ⟨w', rfl⟩ : ∃ w' : Nat, w = (w' : Int) := ⟨w.toNat, by omega⟩
    exact week_idle teams h2 hv w' (by omega) (by omega)

/-- Four teams: 6 weeks of 2 fixtures; five teams: 10 weeks of 2 fixtures. -/
theorem C2_weeks_balanced_witness :
    2 ≤ fourTeams.length ∧ validTeams fourTeams ∧
    (∀ w : Int, 1 ≤ w → w ≤ 6 →
      (GenerateFixtures fourTeams).countP (fun m => decide (m.Week = w)) = 2) ∧
    2 ≤ fiveTeams.length ∧ validTeams fiveTeams ∧
    (∀ w : Int, 1 ≤ w → w ≤ 10 →
      (GenerateFixtures fiveTeams).countP (fun m => decide (m.Week = w)) = 2) :=
  ⟨by decide, by decide, (C2_weeks_balanced fourTeams (by decide) (by decide)).2.1,
    by decide, by decide, (C2_weeks_balanced fiveTeams (by decide) (by decide)).2.1⟩


/-! ## GenerateFixtures: order of the list and unsaved teams -/

theorem mem_emitPair (R r : Nat) (a b : Team) (m : Match) (hm : m ∈ emitPair R r a b) :
    m = firstHalfFixture (r + 1) a b ∨
    (m = secondHalfFixture (r + 1) R a b ∧ a.ID ≠ 0 ∧ b.ID ≠ 0) := by
  unfold emitPair at hm
  split_ifs at hm with h1 h2
  · simp at hm
  · simp only [List.mem_cons, List.mem_singleton, List.not_mem_nil, or_false] at hm
    rcases hm with h | h
    · exact Or.inl h
    · exact Or.inr ⟨h, h2⟩
  · simp only [List.mem_cons, List.mem_singleton, List.not_mem_nil, or_false] at hm
    exact Or.inl hm

theorem mem_GenerateFixtures (teams : List Team) (m : Match)
    (hm : m ∈ GenerateFixtures teams) :
    2 ≤ teams.length ∧ ∃ r, r < halfRounds teams.length ∧
      ((m.Week = ((r + 1 : Nat) : Int)) ∨
       (m.Week = ((r + 1 + halfRounds teams.length : Nat) : Int) ∧
         m.HomeTeamID ≠ 0 ∧ m.AwayTeamID ≠ 0)) := by
  have h2 : 2 ≤ teams.length := by
    by_contra h
    unfold GenerateFixtures at hm
    simp [show teams.length < 2 by omega] at hm
  refine ⟨h2, ?_⟩
  obtain ⟨-, -, -, hR⟩ := schedulingTeams_facts teams h2
  rw [GenerateFixtures_eq teams h2, hR] at hm
  obtain ⟨r, hr, hm⟩ := List.mem_flatMap.mp hm
  obtain ⟨i, -, hm⟩ := List.mem_flatMap.mp hm
  refine ⟨r, List.mem_range.mp hr, ?_⟩
  rcases mem_emitPair _ _ _ _ _ hm with h | ⟨h, ha, hb⟩
  · left; rw [h]; rfl
  · right; rw [h]; exact ⟨rfl, hb, ha⟩

/-- C9, refuted as stated: for four teams the weeks of the returned list start 1, 4, 1, so
the list is not in ascending week order. -/
theorem C9_not_ascending :
    (GenerateFixtures fourTeams).map (fun m => m.Week) = [1, 4, 1, 4, 2, 5, 2, 5, 3, 6, 3, 6] ∧
    ¬ (GenerateFixtures fourTeams).Pairwise (fun a b => a.Week ≤ b.Week) := by
  decide

/-- C9, amended: for every list of teams, with `R = halfRounds N`, the first-half fixtures
(week at most `R`) appear in ascending week order and so do the return fixtures (week
above `R`); the two kinds are interleaved, each return fixture being appended right after
its first-half fixture. -/
theorem C9_ascending_within_half (teams : List Team) :
    (GenerateFixtures teams).Pairwise (fun a b =>
      (a.Week ≤ (halfRounds teams.length : Int) ↔ b.Week ≤ (halfRounds teams.length : Int)) →
        a.Week ≤ b.Week) := by
  by_cases h2 : 2 ≤ teams.length
  · obtain ⟨-, -, -, hR⟩ := schedulingTeams_facts teams h2
    have hweek : ∀ (r i : Nat) (a b : Team) (m : Match),
        m ∈ emitPair (halfRounds teams.length) r a b →
        m.Week = ((r + 1 : Nat) : Int) ∨
          m.Week = ((r + 1 + halfRounds teams.length : Nat) : Int) := by
      intro r i a b m hm
      rcases mem_emitPair _ _ _ _ _ hm with h | ⟨h, -, -⟩
      · left; rw [h]; rfl
      · right; rw [h]; rfl
    rw [GenerateFixtures_eq teams h2, hR, List.pairwise_flatMap]
    constructor
    · intro r hr
      have hr' := List.mem_range.mp hr
      apply List.pairwise_of_forall_mem_list
      intro x hx y hy
      obtain ⟨i, -, hx⟩ := List.mem_flatMap.mp hx
      obtain ⟨j, -, hy⟩ := List.mem_flatMap.mp hy
      have h1 := hweek r i _ _ x hx
      have h3 := hweek r j _ _ y hy
      omega
    · refine List.Pairwise.imp_of_mem ?_ (List.pairwise_lt_range _)
      intro r1 r2 hr1 hr2 hlt x hx y hy
      have hr1' := List.mem_range.mp hr1
      have hr2' := List.mem_range.mp hr2
      obtain ⟨i, -, hx⟩ := List.mem_flatMap.mp hx
      obtain ⟨j, -, hy⟩ := List.mem_flatMap.mp hy
      have h1 := hweek r1 i _ _ x hx
      have h3 := hweek r2 j _ _ y hy
      omega
  · unfold GenerateFixtures
    simp [show teams.length < 2 by omega]

/-- Five teams: within each half of the season the weeks ascend. -/
theorem C9_ascending_within_half_witness :
    (GenerateFixtures fiveTeams).Pairwise (fun a b =>
      (a.Week ≤ 5 ↔ b.Week ≤ 5) → a.Week ≤ b.Week) :=
  C9_ascending_within_half fiveTeams

/-- C10: a pairing in which a team has id 0 gets its first-half fixture but no return
fixture, so no fixture of the second half has a zero id; for an even number `N ≥ 2` of
teams that all have id 0 and are not named "BYE" there are `N*(N-1)/2` fixtures, all in
weeks `1..N-1`. -/
theorem C10_zero_id_no_return (teams : List Team) (h2 : 2 ≤ teams.length)
    (he : teams.length % 2 = 0) (hz : ∀ t ∈ teams, t.ID = 0 ∧ t.Name ≠ "BYE") :
    (∀ (R r : Nat) (a b : Team), a.Name ≠ "BYE" → b.Name ≠ "BYE" → (a.ID = 0 ∨ b.ID = 0) →
      emitPair R r a b = [firstHalfFixture (r + 1) a b]) ∧
    (∀ (ts : List Team), ∀ m ∈ GenerateFixtures ts, (halfRounds ts.length : Int) < m.Week →
      m.HomeTeamID ≠ 0 ∧ m.AwayTeamID ≠ 0) ∧
    (GenerateFixtures teams).length = teams.length * (teams.length - 1) / 2 ∧
    (∀ m ∈ GenerateFixtures teams, 1 ≤ m.Week ∧ m.Week ≤ (teams.length : Int) - 1) := by
  have hemit : ∀ (R r : Nat) (a b : Team), a.Name ≠ "BYE" → b.Name ≠ "BYE" →
      (a.ID = 0 ∨ b.ID = 0) → emitPair R r a b = [firstHalfFixture (r + 1) a b] := by
    intro R r a b ha hb h0
    have : ¬ (a.ID ≠ 0 ∧ b.ID ≠ 0) := by tauto
    simp [emitPair, ha, hb, this]
  have hT : schedulingTeams teams = teams := by
    unfold schedulingTeams
    simp [he]
  have hmem : ∀ m ∈ GenerateFixtures teams, ∃ r, r < teams.length - 1 ∧
      m.Week = ((r + 1 : Nat) : Int) := by
    intro m hm
    obtain ⟨-, r, hr, h | ⟨-, h, -⟩⟩ := mem_GenerateFixtures teams m hm
    · exact ⟨r, by unfold halfRounds at hr; simpa [he] using hr, h⟩
    · exfalso
      obtain ⟨hn, -, -, -⟩ := schedulingTeams_facts teams h2
      rw [GenerateFixtures_eq teams h2] at hm
      obtain ⟨r', hr', hm⟩ := List.mem_flatMap.mp hm
      obtain ⟨i, hi, hm⟩ := List.mem_flatMap.mp hm
      have hr'' := List.mem_range.mp hr'
      have hi' := List.mem_range.mp hi
      rw [hT] at hm hr'' hi'
      have hx := arrIdx_lt teams.length r' i h2 (by omega) (by omega)
      have hy := arrIdx_lt teams.length r' (teams.length - 1 - i) h2 (by omega) (by omega)
      have hzx := hz _ (getD_mem teams _ hx)
      have hzy := hz _ (getD_mem teams _ hy)
      rw [hemit _ _ _ _ hzx.2 hzy.2 (Or.inl hzx.1)] at hm
      rw [List.mem_singleton] at hm
      rw [hm] at h
      exact h hzx.1
  refine ⟨hemit, ?_, ?_, ?_⟩
  · intro ts m hm hw
    obtain ⟨-, r, hr, h | ⟨-, h⟩⟩ := mem_GenerateFixtures ts m hm
    · omega
    · exact h
  · rw [GenerateFixtures_eq teams h2, hT,
      length_flatMap_const _ _ (teams.length / 2), List.length_range]
    · obtain ⟨k, hk⟩ : ∃ k, teams.length = 2 * k + 2 := ⟨(teams.length - 2) / 2, by omega⟩
      rw [hk]
      have e1 : (2 * k + 2) / 2 = k + 1 := by omega
      have e2 : 2 * k + 2 - 1 = 2 * k + 1 := by omega
      rw [e1, e2]
      have e3 : (2 * k + 2) * (2 * k + 1) = 2 * ((2 * k + 1) * (k + 1)) := by ring
      rw [e3, Nat.mul_div_cancel_left _ (by norm_num : 0 < 2)]
    · intro r hr
      have hr' := List.mem_range.mp hr
      rw [length_flatMap_const _ _ 1, List.length_range, Nat.mul_one]
      intro i hi
      have hi' := List.mem_range.mp hi
      have hx := arrIdx_lt teams.length r i h2 (by omega) (by omega)
      have hy := arrIdx_lt teams.length r (teams.length - 1 - i) h2 (by omega) (by omega)
      have hzx := hz _ (getD_mem teams _ hx)
      have hzy := hz _ (getD_mem teams _ hy)
      rw [hemit _ _ _ _ hzx.2 hzy.2 (Or.inl hzx.1)]
      rfl
  · intro m hm
    obtain ⟨r, hr, h⟩ := hmem m hm
    rw [h]
    omega

/-- Four unsaved teams: 6 fixtures instead of 12, in weeks 1 to 3. -/
theorem C10_zero_id_no_return_witness :
    2 ≤ unsavedTeams.length ∧ unsavedTeams.length % 2 = 0 ∧
    (∀ t ∈ unsavedTeams, t.ID = 0 ∧ t.Name ≠ "BYE") ∧
    (GenerateFixtures unsavedTeams).length = 6 ∧
    (∀ m ∈ GenerateFixtures unsavedTeams, 1 ≤ m.Week ∧ m.Week ≤ 3) :=
  ⟨by decide, by decide, by decide,
    (C10_zero_id_no_return unsavedTeams (by decide) (by decide) (by decide)).2.2.1,
    (C10_zero_id_no_return unsavedTeams (by decide) (by decide) (by decide)).2.2.2⟩

end PremierLeague
